import Mathlib

/-!
# dutchcoders/anam: the userspace TCP stack

A shallow embedding of `vendor/github.com/dutchcoders/netstack`
(`stack.go`, `conn.go`, `state.go`, `statetable.go`, `netstack.go`).

* Byte slices are `List UInt8`; `uint32` values are `Nat` reduced modulo `2^32`
  at every arithmetic step; Go's `int` is `Int` wrapped to 64 bits.
* A `*State` and the `*Connection` it points to are one value (`State.Conn`);
  a handler takes the value and returns the mutated one.
* The packages `ipv4` and `tcp` are not among the sources. Their header types are
  records of the fields the sources assign, and an emitted packet is the pair of
  headers handed to `Marshal` and `send`.
-/

namespace Netstack

/-! ## Machine arithmetic -/

/-- Conversion to `uint32`. -/
def u32 (x : Nat) : Nat := x % 4294967296

/-- Go's `int` on amd64: two's complement wrap to 64 bits. -/
def wrapInt (x : Int) : Int := (x + 9223372036854775808) % 18446744073709551616 - 9223372036854775808

/-- The expression `^uint16(x)` widened to `uint32`. -/
def not16 (x : Nat) : Nat := 65535 - x % 65536

/-- The byte `data[i]` widened to `uint32`. -/
def byteAt (data : List UInt8) (i : Nat) : Nat := (data.getD i 0).toNat

/-! ## Checksums (`Stack.send`, stack.go 173-239) -/

/-- The summing loops of `send`:
`for i := start; i < stop; i += 2 { if i == skip { continue }; csum += data[i]<<8; csum += data[i+1] }`.
The first argument bounds the number of rounds. -/
def sumLoop (data : List UInt8) (stop skip : Nat) : Nat → Nat → Nat → Nat
  | 0, _, csum => csum
  | fuel + 1, i, csum =>
    if i < stop then
      if i = skip then sumLoop data stop skip fuel (i + 2) csum
      else sumLoop data stop skip fuel (i + 2)
        (u32 (u32 (csum + u32 (byteAt data i <<< 8)) + byteAt data (i + 1)))
    else csum

/-- The carry loops of `send`:
`for csum > 0xffff { csum = (csum >> 16) + (csum & 0xffff) }`.
The result is `none` when the rounds allowed by the first argument are used up
before the loop exits. -/
def foldLoop : Nat → Nat → Option Nat
  | 0, _ => none
  | fuel + 1, csum =>
    if csum ≤ 65535 then some csum
    else foldLoop fuel (u32 ((csum >>> 16) + csum % 65536))

/-- Lines 175-186: the sum over the 20 header bytes, the field at 10 left out
(`length := 20`, start 0, accumulator 0). -/
def ipHeaderSum (data : List UInt8) : Nat := sumLoop data 20 10 20 0 0

/-- Lines 203-230: pseudo-header, then the bytes from 20 on, the field at 36 left
out, then the odd last byte. `length` is first `len(data) - 20`, then
`len(data) - 1`; `send` reaches this code only with at least 38 bytes. -/
def tcpSum (data : List UInt8) : Nat :=
  let length : Nat := data.length - 20
  let csum := 0
  let csum := u32 (csum + u32 (u32 (byteAt data 12 + byteAt data 14) <<< 8))
  let csum := u32 (csum + u32 (byteAt data 13 + byteAt data 15))
  let csum := u32 (csum + u32 (u32 (byteAt data 16 + byteAt data 18) <<< 8))
  let csum := u32 (csum + u32 (byteAt data 17 + byteAt data 19))
  let csum := u32 (csum + 6)
  let csum := u32 (csum + (u32 length) % 65536)
  let csum := u32 (csum + (u32 length >>> 16))
  let length : Nat := data.length - 1
  let csum := sumLoop data length 36 data.length 20 csum
  if data.length % 2 = 1 then u32 (csum + u32 (byteAt data length <<< 8)) else csum

/-- The checksum update of `Stack.send` (lines 173-239), up to the `Sendto` call.
A buffer shorter than 38 bytes makes one of the indexed accesses panic: `none`.
The carry loops get three rounds: a 32-bit sum is folded in at most two, the third
only tests the exit condition (`foldLoop_spec`). -/
def Stack.send (data : List UInt8) : Option (List UInt8) :=
  if data.length < 38 then none
  else do
    let csum ← foldLoop 3 (ipHeaderSum data)
    let csum := not16 csum
    let data := data.set 10 (UInt8.ofNat ((csum >>> 8) &&& 0xFF))
    let data := data.set 11 (UInt8.ofNat (csum &&& 0xFF))
    let csum ← foldLoop 3 (tcpSum data)
    let csum := not16 (u32 (csum + (csum >>> 16)))
    let data := data.set 36 (UInt8.ofNat ((csum >>> 8) &&& 0xFF))
    let data := data.set 37 (UInt8.ofNat (csum &&& 0xFF))
    some data

/-! ### An independent checksum verifier -/

/-- Big-endian 16-bit words of a byte string; an odd last byte is padded with a
zero low byte. -/
def wordsBE : List UInt8 → List Nat
  | [] => []
  | [a] => [a.toNat * 256]
  | a :: b :: rest => (a.toNat * 256 + b.toNat) :: wordsBE rest

/-- Fold the carries of a wide sum into 16 bits (end-around carry). -/
def foldCarries : Nat → Nat → Nat
  | 0, n => n
  | fuel + 1, n => if n ≤ 65535 then n else foldCarries fuel (n / 65536 + n % 65536)

/-- The 16-bit one's-complement sum of a list of words. -/
def onesComplementSum (ws : List Nat) : Nat := foldCarries ws.sum ws.sum

/-- Verifier for the IPv4 header checksum: the sum of the ten words of bytes 0..19. -/
def ipv4HeaderCheck (pkt : List UInt8) : Nat := onesComplementSum (wordsBE (pkt.take 20))

/-- Verifier for the TCP checksum: pseudo-header (source bytes 12..15, destination
bytes 16..19, protocol 6, TCP length) and the bytes from 20 on. -/
def tcpSegmentCheck (pkt : List UInt8) : Nat :=
  onesComplementSum
    (wordsBE ((pkt.take 20).drop 12) ++ [6, pkt.length - 20] ++ wordsBE (pkt.drop 20))



/-! ## Data model (`netstack.go`, `state.go`, `conn.go`) -/

/-- The type `net.IP`, a byte slice. -/
abbrev IP := List UInt8

/-- The prefix of an IPv4 address in 16-byte form (`v4InV6Prefix` of package `net`). -/
def v4InV6Prefix : List UInt8 := [0, 0, 0, 0, 0, 0, 0, 0, 0, 0, 0xff, 0xff]

/-- The method `net.IP.Equal` of the Go standard library: equal slices, or the
4-byte and 16-byte forms of one IPv4 address. -/
def IP.Equal (ip x : IP) : Bool :=
  if ip.length = x.length then ip == x
  else if ip.length = 4 ∧ x.length = 16 then x.take 12 == v4InV6Prefix && ip == x.drop 12
  else if ip.length = 16 ∧ x.length = 4 then ip.take 12 == v4InV6Prefix && ip.drop 12 == x
  else false

/-- The constants of `netstack.go` lines 26-38. -/
inductive SocketState where
  | SocketClosed
  | SocketListen
  | SocketSynReceived
  | SocketSynSent
  | SocketEstablished
  | SocketFinWait1
  | SocketFinWait2
  | SocketClosing
  | SocketTimeWait
  | SocketCloseWait
  | SocketLastAck
  deriving DecidableEq, Repr

/-- Modelled from the spec: the control flags of package `tcp`, which is not among
the sources. The spec lists them as FIN, SYN, RST, PSH, ACK, URG; the values are
the bit positions of the TCP wire format. -/
def tcp.FIN : Nat := 1
/-- Modelled from the spec: see `tcp.FIN`. -/
def tcp.SYN : Nat := 2
/-- Modelled from the spec: see `tcp.FIN`. -/
def tcp.RST : Nat := 4
/-- Modelled from the spec: see `tcp.FIN`. -/
def tcp.PSH : Nat := 8
/-- Modelled from the spec: see `tcp.FIN`. -/
def tcp.ACK : Nat := 16
/-- Modelled from the spec: see `tcp.FIN`. -/
def tcp.URG : Nat := 32

/-- The fields of `tcp.Header` that the sources assign. `Options` holds the raw
option bytes. -/
structure tcp.Header where
  Source : Nat
  Destination : Nat
  SeqNum : Nat
  AckNum : Nat
  DataOffset : Nat
  Reserved : Nat
  ECN : Nat
  Ctrl : Nat
  Window : Nat
  Checksum : Nat
  Urgent : Nat
  Options : List UInt8
  Payload : List UInt8
  deriving DecidableEq, Repr

/-- Modelled from the spec: `has_flag(flag) → bool` of the TCP header codec, which
is not among the sources: every bit of `flag` is set in the control field. -/
def tcp.Header.HasFlag (th : tcp.Header) (flag : Nat) : Bool := th.Ctrl &&& flag == flag

/-- The fields of `ipv4.Header` that the sources assign. The payload of an emitted
header is the marshalled TCP header, kept beside it in `Packet`. -/
structure ipv4.Header where
  Version : Nat
  Len : Nat
  TOS : Nat
  TotalLen : Nat
  ID : Int
  Flags : Nat
  TTL : Nat
  Protocol : Nat
  Src : IP
  Dst : IP
  Options : List UInt8
  deriving DecidableEq, Repr

/-- Modelled from the spec: `ipv4.New()`, which is not among the sources: version 4,
no options, DF set, TTL 128, protocol 6, as in the header literals of the sources. -/
def ipv4.New : ipv4.Header :=
  { Version := 4, Len := 20, TOS := 0, TotalLen := 52, ID := 0, Flags := 2, TTL := 128,
    Protocol := 6, Src := [], Dst := [], Options := [] }

/-- A packet handed to `send`: the IPv4 header and the TCP header marshalled into
its payload. Modelled from the spec: `Marshal` of either header, which is not among
the sources, returns the bytes of the header and no error. -/
structure Packet where
  iph : ipv4.Header
  th : tcp.Header
  deriving DecidableEq, Repr

/-- The struct `Connection` of `conn.go`. `Connected` is a channel with a buffer of
one that only ever carries `true`: the field says whether a signal is buffered.
`Recv` is closed by `close()` alone, in the step that sets `closed`, so `closed`
also records that `Recv` is closed. The back pointers `current` and `Stack` are the
enclosing `State` and the packets a handler returns. -/
structure Connection where
  closed : Bool
  closing : Bool
  Connected : Bool
  Src : IP
  Dst : IP
  SourcePort : Nat
  DestinationPort : Nat
  buffer : List UInt8
  deriving DecidableEq, Repr

/-- The struct `State` of `state.go` (the lock and the timestamp left out). -/
structure State where
  SrcIP : IP
  SrcPort : Nat
  DestIP : IP
  DestPort : Nat
  RecvNext : Nat
  SendNext : Nat
  SendUnAcknowledged : Nat
  LastAcked : Nat
  SocketState : SocketState
  ID : Int
  Conn : Connection
  deriving DecidableEq, Repr

/-- The type `StateTable` of `statetable.go`: the flows in insertion order. -/
abbrev StateTable := List State

/-- The four tests of the loop body of `StateTable.Get` (lines 17-32): the entry is
returned when none of them says `continue`. -/
def State.matches (state : State) (SrcIP DestIP : IP) (SrcPort DestPort : Nat) : Bool :=
  !(state.SrcPort != SrcPort && state.DestPort != SrcPort) &&
  !(state.DestPort != DestPort && state.SrcPort != DestPort) &&
  !(!IP.Equal state.SrcIP SrcIP && !IP.Equal state.DestIP SrcIP) &&
  !(!IP.Equal state.DestIP DestIP && !IP.Equal state.SrcIP DestIP)

/-- The position of the entry that `StateTable.Get` returns a pointer to. -/
def StateTable.find (st : StateTable) (SrcIP DestIP : IP) (SrcPort DestPort : Nat) :
    Option Nat :=
  st.findIdx? (fun state => state.matches SrcIP DestIP SrcPort DestPort)

/-- The method `StateTable.Get`: the first entry that passes the tests, or nil. -/
def StateTable.Get (st : StateTable) (SrcIP DestIP : IP) (SrcPort DestPort : Nat) :
    Option State :=
  st.find? (fun state => state.matches SrcIP DestIP SrcPort DestPort)

/-- The method `StateTable.Add`. -/
def StateTable.Add (st : StateTable) (state : State) : StateTable := st ++ [state]

/-- The method `Connection.close` (conn.go 170-177). -/
def Connection.close (c : Connection) : Connection :=
  if c.closed then c else { c with closed := true }

/-! ## The segment handler (`Stack.handleTCP`, stack.go 250-580) -/

/-- How a call ends: `nil`, the error `ErrNoState`, or a run-time panic (`panicked`). -/
inductive Ret where
  | nil
  | ErrNoState
  | panicked
  deriving DecidableEq, Repr

/-- The result of handling a segment for one flow: the flow as mutated, the packets
passed to `send` in order, and how the call ended. -/
structure Handled where
  state : State
  sent : List Packet
  ret : Ret
  deriving DecidableEq, Repr

/-- The header literals of `handleTCP` (lines 310-338, 412-440, 463-491, 512-540):
addresses and ports of the inbound segment swapped, `seq = SendNext`,
`ack = RecvNext`, the given control flags, no payload. -/
def reply (state : State) (iph : ipv4.Header) (th : tcp.Header) (ctrl : Nat) : Packet :=
  { iph := { Version := 4, Len := 20, TOS := 0, TotalLen := 52, Flags := 2, TTL := 128,
             Protocol := 6, Src := iph.Dst, Dst := iph.Src, Options := [], ID := state.ID },
    th := { Source := th.Destination, Destination := th.Source, SeqNum := state.SendNext,
            AckNum := state.RecvNext, DataOffset := 5, Reserved := 0, ECN := 0, Ctrl := ctrl,
            Window := 64420, Checksum := 0, Urgent := 0, Options := [], Payload := [] } }

/-- The acknowledgement built in ESTABLISHED (lines 364-383): the IPv4 header comes
from `ipv4.New().WithSource(iph.Dst).WithDestination(iph.Src).WithID(state.ID)`. -/
def replyNew (state : State) (iph : ipv4.Header) (th : tcp.Header) : Packet :=
  { iph := { ipv4.New with Src := iph.Dst, Dst := iph.Src, ID := state.ID },
    th := { Source := th.Destination, Destination := th.Source, SeqNum := state.SendNext,
            AckNum := state.RecvNext, DataOffset := 5, Reserved := 0, ECN := 0,
            Ctrl := tcp.ACK, Window := 64420, Checksum := 0, Urgent := 0, Options := [],
            Payload := [] } }

/-- Lines 297-301: advance the receive window by the payload length, and by one
more when the segment carries SYN or FIN. -/
def advance (state : State) (th : tcp.Header) : State :=
  let state := { state with RecvNext := u32 (state.RecvNext + u32 th.Payload.length) }
  if th.HasFlag tcp.SYN || th.HasFlag tcp.FIN then
    { state with RecvNext := u32 (state.RecvNext + 1) }
  else state

/-- Lines 303-579: the response dispatched on the socket state. -/
def dispatch (state : State) (iph : ipv4.Header) (th : tcp.Header) : Handled :=
  match state.SocketState with
  | .SocketSynSent =>
    if !th.HasFlag (tcp.SYN ||| tcp.ACK) then
      { state := { state with SocketState := .SocketClosed }, sent := [], ret := .nil }
    else
      let pkt := reply state iph th tcp.ACK
      let state := { state with ID := wrapInt (state.ID + 1) }
      -- non-blocking send on `Connected`: stored unless the buffer is full
      let state := { state with Conn := { state.Conn with Connected := true } }
      { state := { state with SocketState := .SocketEstablished }, sent := [pkt],
        ret := .nil }
  | .SocketEstablished =>
    let sent : List Packet := if th.Ctrl = tcp.ACK then [] else [replyNew state iph th]
    let state :=
      if th.Ctrl = tcp.ACK then state else { state with ID := wrapInt (state.ID + 1) }
    let state :=
      if th.Payload.length > 0 then
        { state with Conn := { state.Conn with buffer := state.Conn.buffer ++ th.Payload } }
      else state
    -- non-blocking send on `Recv`: a send on a closed channel panics
    if th.Payload.length > 0 ∧ state.Conn.closed then
      { state := state, sent := sent, ret := .panicked }
    else if th.HasFlag tcp.FIN then
      let pkt := reply state iph th tcp.FIN
      let state := { state with ID := wrapInt (state.ID + 1),
                                SendNext := u32 (state.SendNext + 1),
                                SocketState := .SocketLastAck }
      let state := { state with Conn := { state.Conn with closing := true } }
      { state := state, sent := sent ++ [pkt], ret := .nil }
    else
      { state := state, sent := sent, ret := .nil }
  | .SocketFinWait1 =>
    if th.HasFlag tcp.FIN then
      let pkt := reply state iph th tcp.ACK
      { state := { state with ID := wrapInt (state.ID + 1), SocketState := .SocketClosing },
        sent := [pkt], ret := .nil }
    else if th.HasFlag tcp.ACK then
      { state := { state with SocketState := .SocketFinWait2 }, sent := [], ret := .nil }
    else
      { state := state, sent := [], ret := .nil }
  | .SocketFinWait2 =>
    let pkt := reply state iph th tcp.ACK
    let state := { state with ID := wrapInt (state.ID + 1), SocketState := .SocketClosing }
    { state := { state with Conn := state.Conn.close }, sent := [pkt], ret := .nil }
  | .SocketLastAck =>
    if !th.HasFlag tcp.ACK then
      { state := state, sent := [], ret := .nil }
    else
      { state := { state with Conn := state.Conn.close, SocketState := .SocketTimeWait },
        sent := [], ret := .nil }
  | .SocketClosing =>
    if !th.HasFlag tcp.ACK then
      { state := state, sent := [], ret := .nil }
    else
      { state := { state with Conn := state.Conn.close, SocketState := .SocketTimeWait },
        sent := [], ret := .nil }
  | _ => { state := state, sent := [], ret := .nil }

/-- The body of `handleTCP` from `state.Lock()` on (lines 270-580), for the flow the
lookup returned: RST, then the sequence check, then `advance` and `dispatch`. -/
def handleState (state : State) (iph : ipv4.Header) (th : tcp.Header) : Handled :=
  if th.HasFlag tcp.RST then
    { state := { state with Conn := state.Conn.close, SocketState := .SocketClosed },
      sent := [], ret := .nil }
  else
    let state := if state.RecvNext = 0 then { state with RecvNext := th.SeqNum } else state
    if state.RecvNext ≠ th.SeqNum then
      { state := state, sent := [], ret := .nil }
    else
      dispatch (advance state th) iph th

/-- The result of `handleTCP` on the global table. -/
structure TableResult where
  table : StateTable
  sent : List Packet
  ret : Ret
  deriving DecidableEq, Repr

/-- The method `Stack.handleTCP` (stack.go 250-580) on a parsed segment: look the
flow up by the addresses and ports of the segment, return `ErrNoState` when there
is none, else handle the segment on that entry of the table, in place. -/
def Stack.handleTCP (stateTable : StateTable) (iph : ipv4.Header) (th : tcp.Header) :
    TableResult :=
  match stateTable.find iph.Src iph.Dst th.Source th.Destination with
  | none => { table := stateTable, sent := [], ret := .ErrNoState }
  | some i =>
    match stateTable[i]? with
    | none => { table := stateTable, sent := [], ret := .ErrNoState }
    | some state =>
      let r := handleState state iph th
      { table := stateTable.set i r.state, sent := r.sent, ret := r.ret }


/-- A run of `handleTCP` over a sequence of inbound segments. A panic ends the
process, so no later segment is handled. -/
def Stack.handleAll (stateTable : StateTable) : List (ipv4.Header × tcp.Header) → StateTable
  | [] => stateTable
  | (iph, th) :: rest =>
    let r := Stack.handleTCP stateTable iph th
    if r.ret = .panicked then r.table else Stack.handleAll r.table rest

/-! ## Reading (`Connection.Read`, conn.go 36-58) -/

/-- The errors `Read` returns. -/
inductive ReadError where
  | timeout
  | EOF
  deriving DecidableEq, Repr

/-- What ends the `select` of a blocked `Read`: the 30 second timer, a signal on
`Recv` (posted by the handler after it appended `data` to the buffer), or the
handler closing `Recv`. -/
inductive RecvEvent where
  | timeout
  | signal (data : List UInt8)
  | closed
  deriving DecidableEq, Repr

/-- The result of `Read`: the connection, the destination slice, `n` and `err`. -/
structure ReadResult where
  conn : Connection
  b : List UInt8
  n : Nat
  err : Option ReadError
  deriving DecidableEq, Repr

/-- Go's builtin `copy(dst, src)`: the destination after the copy and the number of
bytes copied. -/
def copy (dst src : List UInt8) : List UInt8 × Nat :=
  let n := min dst.length src.length
  (src.take n ++ dst.drop n, n)

/-- The method `Connection.Read`. The event is consulted only when the call blocks,
that is when the buffer is empty and `Recv` is still open; a receive from a closed
channel is ready at once. -/
def Connection.Read (conn : Connection) (b : List UInt8) (ev : RecvEvent) : ReadResult :=
  if conn.buffer.length > 0 then
    let r := copy b conn.buffer
    { conn := { conn with buffer := conn.buffer.drop r.2 }, b := r.1, n := r.2, err := none }
  else if conn.closed then
    { conn := conn, b := b, n := 0, err := some .EOF }
  else
    match ev with
    | .timeout => { conn := conn, b := b, n := 0, err := some .timeout }
    | .closed => { conn := { conn with closed := true }, b := b, n := 0, err := some .EOF }
    | .signal data =>
      let conn := { conn with buffer := conn.buffer ++ data }
      let r := copy b conn.buffer
      { conn := { conn with buffer := conn.buffer.drop r.2 }, b := r.1, n := r.2, err := none }

/-- Successive reads into the given destination slices, for as long as bytes are
buffered: the bytes returned, concatenated, and the connection left behind. -/
def readAll (conn : Connection) : List (List UInt8) → List UInt8 × Connection
  | [] => ([], conn)
  | b :: bs =>
    if conn.buffer.length > 0 then
      let r := conn.Read b .timeout
      let rest := readAll r.conn bs
      (r.b.take r.n ++ rest.1, rest.2)
    else ([], conn)

/-! ## Specification-side definitions -/

/-- A segment is accepted as in order by a flow: no RST, and its sequence number is
`RecvNext` or `RecvNext` is still 0. -/
def inOrder (state : State) (th : tcp.Header) : Bool :=
  !th.HasFlag tcp.RST && (state.RecvNext == 0 || state.RecvNext == th.SeqNum)

/-- The payload a segment contributes to entry `i` under the reading "every segment
accepted as in order is delivered, whatever the socket state". -/
def acceptedPayload (stateTable : StateTable) (i : Nat) (iph : ipv4.Header) (th : tcp.Header) :
    List UInt8 :=
  if stateTable.find iph.Src iph.Dst th.Source th.Destination = some i then
    match stateTable[i]? with
    | some state => if inOrder state th then th.Payload else []
    | none => []
  else []

/-- The payload a segment contributes to entry `i` when only segments accepted in
order while the flow is ESTABLISHED are delivered. -/
def establishedPayload (stateTable : StateTable) (i : Nat) (iph : ipv4.Header)
    (th : tcp.Header) : List UInt8 :=
  if stateTable.find iph.Src iph.Dst th.Source th.Destination = some i then
    match stateTable[i]? with
    | some state =>
      if inOrder state th ∧ state.SocketState = .SocketEstablished then th.Payload else []
    | none => []
  else []

/-- The concatenation, along a run of `handleTCP`, of what `pick` selects for entry
`i` from each segment handled, given the table at the time the segment arrives. -/
def payloadsAlong (pick : StateTable → Nat → ipv4.Header → tcp.Header → List UInt8) (i : Nat)
    (stateTable : StateTable) : List (ipv4.Header × tcp.Header) → List UInt8
  | [] => []
  | (iph, th) :: rest =>
    let r := Stack.handleTCP stateTable iph th
    pick stateTable i iph th ++
      (if r.ret = .panicked then [] else payloadsAlong pick i r.table rest)

/-- Sum of `n` big-endian words read by index at `i`, `i + 2`, ...; a byte past the
end reads as zero. -/
def wsum (data : List UInt8) : Nat → Nat → Nat
  | _, 0 => 0
  | i, n + 1 => (byteAt data i * 256 + byteAt data (i + 1)) + wsum data (i + 2) n

/-- Store a 16-bit value big-endian at `off`, `off + 1`. -/
def putWord (data : List UInt8) (off csum : Nat) : List UInt8 :=
  (data.set off (UInt8.ofNat ((csum >>> 8) &&& 0xFF))).set (off + 1) (UInt8.ofNat (csum &&& 0xFF))

/-! ## Scenario data (spec section 8: local 10.0.0.1, peer 93.184.216.34, port 80) -/

/-- The local address. -/
def localIP : IP := [10, 0, 0, 1]

/-- The peer address. -/
def peerIP : IP := [93, 184, 216, 34]

/-- The connection of the scenario flow. -/
def scenarioConn : Connection :=
  { closed := false, closing := false, Connected := false, Src := localIP, Dst := peerIP,
    SourcePort := 33000, DestinationPort := 80, buffer := [] }

/-- The flow after the dial: SYN with sequence number 1000 sent, `SendNext` 1001. -/
def dialled : State :=
  { SrcIP := localIP, SrcPort := 33000, DestIP := peerIP, DestPort := 80, RecvNext := 0,
    SendNext := 1001, SendUnAcknowledged := 0, LastAcked := 0,
    SocketState := .SocketSynSent, ID := 7, Conn := scenarioConn }

/-- The flow after the handshake: ESTABLISHED, `RecvNext` 9001. -/
def established : State :=
  { dialled with RecvNext := 9001, SocketState := .SocketEstablished, ID := 8,
                 Conn := { scenarioConn with Connected := true } }

/-- The flow after the user closed it: FIN sent, FIN_WAIT_1. -/
def finWait1 : State :=
  { established with SendNext := 1002, SocketState := .SocketFinWait1, ID := 9,
                     Conn := { scenarioConn with Connected := true, closing := true } }

/-- The IPv4 header of a segment from the peer. -/
def fromPeer : ipv4.Header :=
  { Version := 4, Len := 5, TOS := 0, TotalLen := 40, ID := 0, Flags := 2, TTL := 64,
    Protocol := 6, Src := peerIP, Dst := localIP, Options := [] }

/-- A segment from the peer with the given sequence number, control flags and
payload. -/
def peerSegment (seq ctrl : Nat) (payload : List UInt8) : tcp.Header :=
  { Source := 80, Destination := 33000, SeqNum := seq, AckNum := 1001, DataOffset := 5,
    Reserved := 0, ECN := 0, Ctrl := ctrl, Window := 65535, Checksum := 0, Urgent := 0,
    Options := [], Payload := payload }

/-- The 19 bytes of the response of scenario 2. -/
def httpOk : List UInt8 :=
  [72, 84, 84, 80, 47, 49, 46, 49, 32, 50, 48, 48, 32, 79, 75, 13, 10, 13, 10]

/-- The flow after the 74-byte request of scenario 2 was written: `SendNext` 1075. -/
def requested : State := { established with SendNext := 1075, ID := 9 }

/-- A bare segment from the local endpoint to the peer, as the handler builds it. -/
def localPacket (id : Int) (seq ack ctrl : Nat) : Packet :=
  { iph := { Version := 4, Len := 20, TOS := 0, TotalLen := 52, ID := id, Flags := 2,
             TTL := 128, Protocol := 6, Src := localIP, Dst := peerIP, Options := [] },
    th := { Source := 33000, Destination := 80, SeqNum := seq, AckNum := ack,
            DataOffset := 5, Reserved := 0, ECN := 0, Ctrl := ctrl, Window := 64420,
            Checksum := 0, Urgent := 0, Options := [], Payload := [] } }

/-- A 40-byte packet: IPv4 and TCP header of a SYN, checksum fields not yet set. -/
def samplePacket : List UInt8 :=
  [0x45, 0, 0, 40, 0, 7, 0x40, 0, 128, 6, 0, 0, 10, 0, 0, 1, 93, 184, 216, 34,
   0x9c, 0x40, 0, 80, 0, 0, 0x03, 0xe8, 0, 0, 0, 0, 0x50, 0x02, 0xfb, 0xa4, 0, 0, 0, 0]


/-! ## User actions (`Connection.Write`, conn.go 63-119; `Connection.Close`, conn.go 181-248)

The receiver `c` and `c.current` point at each other (`Open` sets `state.Conn = c` and
`c.current = state`), so both methods take the flow, a `State` with its `Conn`. -/

/-- The error of `Write`: `errors.New("Writing to a closed connection.")`. -/
inductive WriteError where
  | closedConnection
  deriving DecidableEq, Repr

/-- The result of `Write`: the flow as mutated, the packets passed to `send`, and the
return values `n` and `err`. -/
structure WriteResult where
  state : State
  sent : List Packet
  n : Nat
  err : Option WriteError
  deriving DecidableEq, Repr

/-- The method `Connection.Write`. -/
def Connection.Write (state : State) (b : List UInt8) : WriteResult :=
  if state.Conn.closing || state.Conn.closed then
    { state := state, sent := [], n := 0, err := some .closedConnection }
  else
    let pkt : Packet :=
      { iph := { Version := 4, Len := 20, TOS := 0, TotalLen := 52 + b.length, Flags := 2,
                 TTL := 128, Protocol := 6, Src := state.Conn.Src, Dst := state.Conn.Dst,
                 Options := [], ID := state.ID },
        th := { Source := state.Conn.SourcePort, Destination := state.Conn.DestinationPort,
                SeqNum := state.SendNext, AckNum := state.RecvNext, DataOffset := 5,
                Reserved := 0, ECN := 0, Ctrl := tcp.PSH ||| tcp.ACK, Window := 64420,
                Checksum := 0, Urgent := 0, Options := [], Payload := b } }
    let state := { state with ID := wrapInt (state.ID + 1) }
    let state := { state with SendNext := u32 (state.SendNext + u32 b.length) }
    { state := state, sent := [pkt], n := b.length, err := none }

/-- The method `Connection.Close`; the error it returns is always nil here, `Marshal`
being modelled without failure. -/
def Connection.Close (state : State) : Handled :=
  if state.Conn.closing || state.Conn.closed then
    { state := state, sent := [], ret := .nil }
  else
    let state := { state with Conn := { state.Conn with closing := true } }
    let pkt : Packet :=
      { iph := { Version := 4, Len := 20, TOS := 0, TotalLen := 52, Flags := 2, TTL := 128,
                 Protocol := 6, Src := state.Conn.Src, Dst := state.Conn.Dst, Options := [],
                 ID := state.ID },
        th := { Source := state.Conn.SourcePort, Destination := state.Conn.DestinationPort,
                SeqNum := state.SendNext, AckNum := state.RecvNext, DataOffset := 5,
                Reserved := 0, ECN := 0, Ctrl := tcp.FIN ||| tcp.ACK, Window := 64420,
                Checksum := 0, Urgent := 0, Options := [], Payload := [] } }
    let state := { state with SocketState := .SocketFinWait1 }
    let state := { state with ID := wrapInt (state.ID + 1) }
    let state := { state with SendNext := u32 (state.SendNext + 1) }
    { state := state, sent := [pkt], ret := .nil }

/-! ## Operations on a flow -/

/-- An operation that can touch the flow held at an entry of the table: an inbound
segment handled by `handleTCP`, a user `Write`, a user `Close`. -/
inductive Op where
  | segment (iph : ipv4.Header) (th : tcp.Header)
  | write (b : List UInt8)
  | close
  deriving DecidableEq, Repr

/-- The table after an operation; `Write` and `Close` act on entry `i`. -/
def applyOp (stateTable : StateTable) (i : Nat) : Op → StateTable
  | .segment iph th => (Stack.handleTCP stateTable iph th).table
  | .write b =>
    match stateTable[i]? with
    | some state => stateTable.set i (Connection.Write state b).state
    | none => stateTable
  | .close =>
    match stateTable[i]? with
    | some state => stateTable.set i (Connection.Close state).state
    | none => stateTable

/-- The most an operation adds to `SendNext`: the payload length for a `Write`, one
sequence number (a FIN) otherwise. -/
def Op.size : Op → Nat
  | .write b => b.length
  | _ => 1

/-- The connection no longer accepts writes: `closing` or `closed` is set. -/
def shut (f : State) : Bool := f.Conn.closing || f.Conn.closed

/-- The invariant behind the non-blocking send on `Recv`: while the flow is in
SYN_SENT or ESTABLISHED its byte-stream has not been closed. -/
def openWhileConnected (f : State) : Bool :=
  (f.SocketState != .SocketSynSent && f.SocketState != .SocketEstablished) || !f.Conn.closed

/-- The 74 bytes of the request of scenario 2 (the content does not matter). -/
def httpGet : List UInt8 := List.replicate 74 71

/-- The flow after the response of scenario 2 was received and acknowledged:
`SendNext` 1075, `RecvNext` 9020. -/
def responded : State :=
  { requested with RecvNext := 9020, ID := 10,
                   Conn := { scenarioConn with Connected := true, buffer := httpOk } }

/-- The flow after the peer acknowledged the FIN of the user: FIN_WAIT_2. -/
def finWait2 : State := { finWait1 with SocketState := .SocketFinWait2 }

/-- The flow after the peer's FIN was answered in ESTABLISHED: LAST_ACK. -/
def lastAck : State :=
  { established with RecvNext := 9002, SendNext := 1002, SocketState := .SocketLastAck,
                     ID := 10, Conn := { scenarioConn with Connected := true, closing := true } }

/-- A flow whose send sequence number is the largest 32-bit value. -/
def atWrap : State := { established with SendNext := 4294967295 }


/-! ## Dialling (`Connection.Open`, conn.go 254-342; `Stack.Connect`, stack.go 72-93) -/

/-- Conversion to `uint16`. -/
def u16 (x : Nat) : Nat := x % 65536

/-- Line 260: `1000 + uint16(c.Stack.r.Intn(32768))`, for the value `r` drawn. -/
def openSourcePort (r : Nat) : Nat := u16 (1000 + u16 r)

/-- Line 264: `uint32(c.Stack.r.Intn(2147483648))`, for the value `r` drawn. -/
def openSendNext (r : Nat) : Nat := u32 r

/-- Line 266: `int(c.Stack.r.Uint32() % 65535)`, for the value `r` drawn. -/
def openID (r : Nat) : Int := ((u32 r % 65535 : Nat) : Int)

/-- The method `Connection.Open` on the global table. The three values drawn from the
random source are arguments; `port` is a Go `int`, converted by `uint16(port)`. -/
def Connection.Open (stateTable : StateTable) (c : Connection) (src dst : IP) (port : Int)
    (rPort rSeq rID : Nat) : TableResult :=
  let c := { c with Src := src, Dst := dst, closed := false }
  let c := { c with SourcePort := openSourcePort rPort }
  let c := { c with DestinationPort := (port % 65536).toNat }
  let sendNext := openSendNext rSeq
  let id := openID rID
  let state : State :=
    { SrcPort := c.SourcePort, DestPort := c.DestinationPort, SrcIP := src, DestIP := dst,
      ID := id, RecvNext := 0, SendNext := sendNext, SendUnAcknowledged := 0,
      LastAcked := 0, SocketState := .SocketClosed, Conn := c }
  let state := { state with SocketState := .SocketSynSent }
  let pkt : Packet :=
    { iph := { Version := 4, Len := 20, TOS := 0, TotalLen := 52, Flags := 2, TTL := 128,
               Protocol := 6, Src := src, Dst := dst, Options := [], ID := id },
      th := { Source := c.SourcePort, Destination := c.DestinationPort, SeqNum := sendNext,
              AckNum := 0, DataOffset := 5, Reserved := 0, ECN := 0, Ctrl := tcp.SYN,
              Window := 64420, Checksum := 0, Urgent := 0, Options := [], Payload := [] } }
  let state := { state with ID := wrapInt (state.ID + 1) }
  let state := { state with SendNext := u32 (state.SendNext + 1) }
  { table := stateTable ++ [state], sent := [pkt], ret := .nil }

/-- The connection that `Stack.Connect` creates before it calls `Open` (lines 73-79):
fresh channels, `Src` the address of the stack, `Dst` the destination. -/
def newConnection (src dst : IP) : Connection :=
  { closed := false, closing := false, Connected := false, Src := src, Dst := dst,
    SourcePort := 0, DestinationPort := 0, buffer := [] }

/-! ## Runs of the stack -/

/-- A step of a run: a dial (`Connect` up to the end of `Open`, with its three random
draws), an inbound segment, a `Write` or a `Close` on the flow at an entry. -/
inductive Action where
  | dial (src dst : IP) (port : Int) (rPort rSeq rID : Nat)
  | segment (iph : ipv4.Header) (th : tcp.Header)
  | write (i : Nat) (b : List UInt8)
  | close (i : Nat)
  deriving DecidableEq, Repr

/-- The table after a run of actions. A panic of the segment handler ends the
process, so no later action is run. -/
def Stack.run (stateTable : StateTable) : List Action → StateTable
  | [] => stateTable
  | .dial src dst port rPort rSeq rID :: rest =>
    Stack.run
      (Connection.Open stateTable (newConnection src dst) src dst port rPort rSeq rID).table
      rest
  | .segment iph th :: rest =>
    let r := Stack.handleTCP stateTable iph th
    if r.ret = .panicked then r.table else Stack.run r.table rest
  | .write i b :: rest => Stack.run (applyOp stateTable i (.write b)) rest
  | .close i :: rest => Stack.run (applyOp stateTable i .close) rest

/-- The endpoints of a flow: local address and port, remote address and port. -/
def State.endpoints (f : State) : IP × Nat × IP × Nat := (f.SrcIP, f.SrcPort, f.DestIP, f.DestPort)

/-- The dial of the scenarios: source port 33000 (draw 32000), initial sequence number
1000, IP identification 6. -/
def scenarioDial : Action := .dial localIP peerIP 80 32000 1000 6

/-- A flow between two other endpoints, with the ports of the scenario flow swapped
between local and remote. -/
def otherFlow : State :=
  { dialled with SrcIP := [10, 0, 0, 2], DestIP := [93, 184, 216, 35], SrcPort := 80,
                 DestPort := 33000 }

/-- The flow after a handshake completed by a SYN+ACK with sequence number 2^32 - 1:
ESTABLISHED with `RecvNext` 0. -/
def zeroed : State := { established with RecvNext := 0 }


/-! ## Checksum lemmas -/

theorem byteAt_lt (data : List UInt8) (i : Nat) : byteAt data i < 256 := by
  unfold byteAt
  exact UInt8.toNat_lt _

theorem byteAt_set (data : List UInt8) (j k : Nat) (x : UInt8) (h : k ≠ j) :
    byteAt (data.set j x) k = byteAt data k := by
  simp [byteAt, List.getElem?_set, Ne.symm h]

theorem byteAt_set_self (data : List UInt8) (j : Nat) (x : UInt8) (h : j < data.length) :
    byteAt (data.set j x) j = x.toNat := by
  simp [byteAt, List.getElem?_set, h]

theorem byteAt_set_zero (data : List UInt8) (j : Nat) :
    byteAt (data.set j 0) j = 0 := by
  by_cases h : j < data.length
  · simp [byteAt, List.getElem?_set, h]
  · simp [byteAt, List.getElem?_set, h]

theorem byteAt_drop (data : List UInt8) (k i : Nat) :
    byteAt (data.drop k) i = byteAt data (k + i) := by
  simp [byteAt, List.getElem?_drop]

theorem byteAt_take (data : List UInt8) (k i : Nat) (h : i < k) :
    byteAt (data.take k) i = byteAt data i := by
  simp [byteAt, List.getElem?_take_of_lt h]

theorem byteAt_of_le (data : List UInt8) (i : Nat) (h : data.length ≤ i) :
    byteAt data i = 0 := by
  simp [byteAt, List.getElem?_eq_none h]

theorem wsum_le (data : List UInt8) : ∀ n i, wsum data i n ≤ 65535 * n := by
  intro n
  induction n with
  | zero => intro i; simp [wsum]
  | succ n ih =>
    intro i
    have h1 := byteAt_lt data i
    have h2 := byteAt_lt data (i + 1)
    have h3 := ih (i + 2)
    simp only [wsum]
    omega

theorem wsum_congr (d e : List UInt8) : ∀ n i,
    (∀ j, i ≤ j → j < i + 2 * n → byteAt d j = byteAt e j) → wsum d i n = wsum e i n := by
  intro n
  induction n with
  | zero => intro i _; simp [wsum]
  | succ n ih =>
    intro i h
    simp only [wsum]
    rw [h i (by omega) (by omega), h (i + 1) (by omega) (by omega),
      ih (i + 2) (fun j h1 h2 => h j (by omega) (by omega))]

theorem wsum_add (d : List UInt8) : ∀ m n i,
    wsum d i (m + n) = wsum d i m + wsum d (i + 2 * m) n := by
  intro m
  induction m with
  | zero => intro n i; simp [wsum]
  | succ m ih =>
    intro n i
    have e : m + 1 + n = (m + n) + 1 := by omega
    rw [e]
    simp only [wsum]
    rw [ih n (i + 2)]
    have e2 : i + 2 + 2 * m = i + 2 * (m + 1) := by omega
    rw [e2]
    omega

theorem wsum_shift (d : List UInt8) (k : Nat) : ∀ n i,
    wsum (d.drop k) i n = wsum d (k + i) n := by
  intro n
  induction n with
  | zero => intro i; simp [wsum]
  | succ n ih =>
    intro i
    simp only [wsum]
    rw [ih (i + 2), byteAt_drop, byteAt_drop]
    rfl

theorem wordsBE_sum : ∀ l : List UInt8, (wordsBE l).sum = wsum l 0 ((l.length + 1) / 2)
  | [] => by simp [wordsBE, wsum]
  | [a] => by simp [wordsBE, wsum, byteAt]
  | a :: b :: rest => by
    have ih := wordsBE_sum rest
    have e : ((a :: b :: rest).length + 1) / 2 = (rest.length + 1) / 2 + 1 := by
      simp only [List.length_cons]; omega
    rw [e]
    simp only [wordsBE, List.sum_cons, wsum]
    rw [ih]
    have s := wsum_shift (a :: b :: rest) 2 ((rest.length + 1) / 2) 0
    simp only [List.drop_succ_cons, List.drop_zero] at s
    rw [s]
    simp [byteAt]

/-- Writing a word at an aligned position adds it to the sum taken with the
field zeroed. -/
theorem wsum_set_word (d : List UInt8) (x y : UInt8) : ∀ m n i, m < n →
    i + 2 * m + 1 < d.length →
    wsum ((d.set (i + 2 * m) x).set (i + 2 * m + 1) y) i n
      = wsum ((d.set (i + 2 * m) 0).set (i + 2 * m + 1) 0) i n + (x.toNat * 256 + y.toNat) := by
  intro m
  induction m with
  | zero =>
    intro n i hn hl
    obtain ⟨n, rfl⟩ : ∃ k, n = k + 1 := ⟨n - 1, by omega⟩
    simp only [wsum, Nat.mul_zero, Nat.add_zero]
    rw [byteAt_set _ _ _ _ (by omega), byteAt_set_self _ _ _ (by omega),
      byteAt_set_self _ _ _ (by simp; omega),
      byteAt_set _ _ _ _ (by omega), byteAt_set_zero, byteAt_set_zero]
    have c : wsum ((d.set i x).set (i + 1) y) (i + 2) n
        = wsum ((d.set i 0).set (i + 1) 0) (i + 2) n := by
      apply wsum_congr
      intro j h1 _
      rw [byteAt_set _ _ _ _ (by omega), byteAt_set _ _ _ _ (by omega),
        byteAt_set _ _ _ _ (by omega), byteAt_set _ _ _ _ (by omega)]
    rw [c]
    omega
  | succ m ih =>
    intro n i hn hl
    obtain ⟨n, rfl⟩ : ∃ k, n = k + 1 := ⟨n - 1, by omega⟩
    have e : i + 2 * (m + 1) = (i + 2) + 2 * m := by omega
    rw [e] at hl ⊢
    simp only [wsum]
    rw [ih n (i + 2) (by omega) hl]
    rw [byteAt_set _ _ _ _ (by omega), byteAt_set _ _ _ _ (by omega),
      byteAt_set _ _ _ _ (by omega), byteAt_set _ _ _ _ (by omega),
      byteAt_set _ _ _ _ (by omega), byteAt_set _ _ _ _ (by omega),
      byteAt_set _ _ _ _ (by omega), byteAt_set _ _ _ _ (by omega)]
    omega

/-- The summing loop computes the word sum of the buffer with the skipped field
zeroed, as long as the 32-bit accumulator cannot overflow. -/
theorem sumLoop_eq (data : List UInt8) (stop skip : Nat) : ∀ fuel i c,
    (i + skip) % 2 = 0 → (stop + 1 - i) / 2 ≤ fuel →
    c + 65535 * ((stop + 1 - i) / 2) < 4294967296 →
    sumLoop data stop skip fuel i c
      = c + wsum ((data.set skip 0).set (skip + 1) 0) i ((stop + 1 - i) / 2) := by
  intro fuel
  induction fuel with
  | zero =>
    intro i c _ hf _
    have e : (stop + 1 - i) / 2 = 0 := by omega
    simp [sumLoop, e, wsum]
  | succ fuel ih =>
    intro i c hp hf hb
    simp only [sumLoop]
    by_cases hlt : i < stop
    · have e : (stop + 1 - i) / 2 = (stop + 1 - (i + 2)) / 2 + 1 := by omega
      rw [if_pos hlt, e]
      rw [e] at hb hf
      simp only [wsum]
      by_cases hs : i = skip
      · rw [if_pos hs, ih (i + 2) c (by omega) (by omega) (by omega)]
        subst hs
        rw [byteAt_set _ _ _ _ (by omega), byteAt_set_zero, byteAt_set_zero]
        omega
      · rw [if_neg hs]
        have b1 := byteAt_lt data i
        have b2 := byteAt_lt data (i + 1)
        have hc : u32 (u32 (c + u32 (byteAt data i <<< 8)) + byteAt data (i + 1))
            = c + (byteAt data i * 256 + byteAt data (i + 1)) := by
          simp only [u32, Nat.shiftLeft_eq]
          omega
        rw [hc, ih (i + 2) _ (by omega) (by omega) (by omega)]
        rw [byteAt_set _ _ _ _ (by omega), byteAt_set _ _ _ _ (by omega),
          byteAt_set _ _ _ _ (by omega), byteAt_set _ _ _ _ (by omega)]
        omega
    · have e : (stop + 1 - i) / 2 = 0 := by omega
      rw [if_neg hlt, e]
      simp [wsum]

theorem sumLoop_lt (data : List UInt8) (stop skip : Nat) : ∀ fuel i c,
    c < 4294967296 → sumLoop data stop skip fuel i c < 4294967296 := by
  intro fuel
  induction fuel with
  | zero => intro i c h; simpa [sumLoop] using h
  | succ fuel ih =>
    intro i c h
    simp only [sumLoop]
    split_ifs
    · exact ih _ _ h
    · apply ih
      unfold u32
      omega
    · exact h


theorem fold_step_mod (x : Nat) : (x / 65536 + x % 65536) % 65535 = x % 65535 := by
  have h : x = (x / 65536 + x % 65536) + 65535 * (x / 65536) := by omega
  calc (x / 65536 + x % 65536) % 65535
      = ((x / 65536 + x % 65536) + 65535 * (x / 65536)) % 65535 :=
        (Nat.add_mul_mod_self_left _ _ _).symm
    _ = x % 65535 := by rw [← h]

theorem foldLoop_spec (c : Nat) (h : c < 4294967296) :
    ∃ r, foldLoop 3 c = some r ∧ r ≤ 65535 ∧ r % 65535 = c % 65535 ∧ (r = 0 ↔ c = 0) := by
  have k1 := fold_step_mod c
  have k2 := fold_step_mod (c / 65536 + c % 65536)
  have e1 : u32 ((c >>> 16) + c % 65536) = c / 65536 + c % 65536 := by
    simp only [u32, Nat.shiftRight_eq_div_pow]; omega
  have e2 : u32 (((c / 65536 + c % 65536) >>> 16) + (c / 65536 + c % 65536) % 65536)
      = (c / 65536 + c % 65536) / 65536 + (c / 65536 + c % 65536) % 65536 := by
    simp only [u32, Nat.shiftRight_eq_div_pow]; omega
  simp only [foldLoop, e1, e2]
  split_ifs with h1 h2 h3
  · exact ⟨c, rfl, h1, rfl, Iff.rfl⟩
  · exact ⟨_, rfl, h2, k1, by omega⟩
  · exact ⟨_, rfl, h3, by rw [k2, k1], by omega⟩
  · omega

theorem foldCarries_spec : ∀ fuel n, n ≤ fuel →
    foldCarries fuel n ≤ 65535 ∧ foldCarries fuel n % 65535 = n % 65535 ∧
      (foldCarries fuel n = 0 ↔ n = 0) := by
  intro fuel
  induction fuel with
  | zero => intro n h; simp [foldCarries]; omega
  | succ fuel ih =>
    intro n h
    simp only [foldCarries]
    split_ifs with h1
    · exact ⟨h1, rfl, Iff.rfl⟩
    · obtain ⟨a, b, c⟩ := ih (n / 65536 + n % 65536) (by omega)
      refine ⟨a, by rw [b, fold_step_mod], ?_⟩
      constructor
      · intro hz
        have := c.mp hz
        omega
      · intro hz; omega

theorem onesComplementSum_of_multiple (ws : List Nat) (hpos : 0 < ws.sum)
    (hmod : ws.sum % 65535 = 0) : onesComplementSum ws = 65535 := by
  obtain ⟨a, b, c⟩ := foldCarries_spec ws.sum ws.sum (Nat.le_refl _)
  unfold onesComplementSum
  have : foldCarries ws.sum ws.sum ≠ 0 := fun hz => by have := c.mp hz; omega
  omega

/-- The two bytes written for a checksum read back as the 16-bit value. -/
theorem checksum_bytes (cs : Nat) (h : cs < 65536) :
    (UInt8.ofNat ((cs >>> 8) &&& 0xFF)).toNat * 256 + (UInt8.ofNat (cs &&& 0xFF)).toNat = cs := by
  have e : (0xFF : Nat) = 2 ^ 8 - 1 := by norm_num
  rw [e, Nat.and_pow_two_sub_one_eq_mod, Nat.and_pow_two_sub_one_eq_mod,
    UInt8.toNat_ofNat_of_lt (Nat.mod_lt _ (by norm_num)),
    UInt8.toNat_ofNat_of_lt (Nat.mod_lt _ (by norm_num)), Nat.shiftRight_eq_div_pow]
  have hs : UInt8.size = 256 := rfl
  simp only [hs] at *
  omega


theorem byteAt_set_ite (d : List UInt8) (j k : Nat) (x : UInt8) :
    byteAt (d.set j x) k = if k = j ∧ j < d.length then x.toNat else byteAt d k := by
  by_cases h : k = j
  · subst h
    by_cases hl : k < d.length
    · simp [byteAt_set_self _ _ _ hl, hl]
    · rw [byteAt_of_le _ _ (by simpa using Nat.le_of_not_lt hl)]
      simp [hl, byteAt_of_le _ _ (Nat.le_of_not_lt hl)]
  · simp [h, byteAt_set _ _ _ _ h]

/-- The summing loop reads only bytes at or after its start and outside the
skipped field. -/
theorem sumLoop_congr (d e : List UInt8) (stop skip lo : Nat)
    (h : ∀ j, lo ≤ j → j ≤ stop → j ≠ skip → j ≠ skip + 1 → byteAt d j = byteAt e j) :
    ∀ fuel i c, lo ≤ i → (i + skip) % 2 = 0 →
      sumLoop d stop skip fuel i c = sumLoop e stop skip fuel i c := by
  intro fuel
  induction fuel with
  | zero => intro i c _ _; simp [sumLoop]
  | succ fuel ih =>
    intro i c hlo hp
    simp only [sumLoop]
    by_cases hlt : i < stop
    · by_cases hs : i = skip
      · simp only [if_pos hlt, if_pos hs]
        exact ih _ _ (by omega) (by omega)
      · simp only [if_pos hlt, if_neg hs]
        rw [h i hlo (by omega) hs (by omega),
          h (i + 1) (by omega) (by omega) (by omega) (by omega)]
        exact ih _ _ (by omega) (by omega)
    · simp only [if_neg hlt]

theorem ipHeaderSum_lt (data : List UInt8) : ipHeaderSum data < 4294967296 :=
  sumLoop_lt _ _ _ _ _ _ (by norm_num)

theorem tcpSum_lt (data : List UInt8) : tcpSum data < 4294967296 := by
  unfold tcpSum
  simp only []
  split_ifs
  · exact Nat.mod_lt _ (by norm_num)
  · exact sumLoop_lt _ _ _ _ _ _ (Nat.mod_lt _ (by norm_num))

theorem length_putWord (data : List UInt8) (off csum : Nat) :
    (putWord data off csum).length = data.length := by
  simp [putWord]

theorem byteAt_putWord (data : List UInt8) (off csum k : Nat) (h1 : k ≠ off) (h2 : k ≠ off + 1) :
    byteAt (putWord data off csum) k = byteAt data k := by
  unfold putWord
  rw [byteAt_set _ _ _ _ h2, byteAt_set _ _ _ _ h1]

/-- The shape of the result of `send`: both checksums are the complement of the
folded sums, and the loops exit within the rounds allowed. -/
theorem send_eq (data : List UInt8) (h : 38 ≤ data.length) :
    ∃ r1 r2, r1 ≤ 65535 ∧ r1 % 65535 = ipHeaderSum data % 65535 ∧
      (r1 = 0 ↔ ipHeaderSum data = 0) ∧
      r2 ≤ 65535 ∧ r2 % 65535 = tcpSum (putWord data 10 (65535 - r1)) % 65535 ∧
      (r2 = 0 ↔ tcpSum (putWord data 10 (65535 - r1)) = 0) ∧
      foldLoop 3 (ipHeaderSum data) = some r1 ∧
      foldLoop 3 (tcpSum (putWord data 10 (65535 - r1))) = some r2 ∧
      Stack.send data = some (putWord (putWord data 10 (65535 - r1)) 36 (65535 - r2)) := by
  obtain ⟨r1, f1, a1, b1, c1⟩ := foldLoop_spec _ (ipHeaderSum_lt data)
  obtain ⟨r2, f2, a2, b2, c2⟩ := foldLoop_spec _ (tcpSum_lt (putWord data 10 (65535 - r1)))
  refine ⟨r1, r2, a1, b1, c1, a2, b2, c2, f1, f2, ?_⟩
  have n1 : not16 r1 = 65535 - r1 := by unfold not16; omega
  have n2 : not16 (u32 (r2 + r2 >>> 16)) = 65535 - r2 := by
    simp only [not16, u32, Nat.shiftRight_eq_div_pow]; omega
  have hl : ¬ data.length < 38 := by omega
  unfold putWord at f2
  simp only [Stack.send, hl, if_false, f1, n1, Option.bind_eq_bind, Option.some_bind, f2, n2,
    putWord]


theorem complement_closes (S r : Nat) (h1 : r ≤ 65535) (h2 : r % 65535 = S % 65535)
    (h3 : r = 0 ↔ S = 0) : 0 < S + (65535 - r) ∧ (S + (65535 - r)) % 65535 = 0 := by
  constructor
  · by_cases hr : r = 65535
    · have : S ≠ 0 := fun hs => by have := h3.mpr hs; omega
      omega
    · omega
  · by_cases hr : r = 65535
    · subst hr
      simp at h2 ⊢
      omega
    · have hr' : r % 65535 = r := Nat.mod_eq_of_lt (by omega)
      rw [hr'] at h2
      have e : S + (65535 - r) = (S % 65535 + (65535 - r)) + 65535 * (S / 65535) := by omega
      rw [e, Nat.add_mul_mod_self_left, ← h2]
      have : r + (65535 - r) = 65535 := by omega
      rw [this]

theorem putWord_readback (d : List UInt8) (off cs : Nat) (h : cs < 65536)
    (hl : off + 1 < d.length) :
    byteAt (putWord d off cs) off * 256 + byteAt (putWord d off cs) (off + 1) = cs := by
  unfold putWord
  rw [byteAt_set _ _ _ _ (by omega), byteAt_set_self _ _ _ (by omega),
    byteAt_set_self _ _ _ (by simp; omega)]
  exact checksum_bytes cs h

/-- Word sum over a region containing a written word: the written value plus the
sum taken with the field zeroed. -/
theorem wsum_putWord (d : List UInt8) (cs i m n : Nat) (h : cs < 65536) (hm : m < n)
    (hl : i + 2 * m + 1 < d.length) :
    wsum (putWord d (i + 2 * m) cs) i n
      = wsum ((d.set (i + 2 * m) 0).set (i + 2 * m + 1) 0) i n + cs := by
  unfold putWord
  rw [wsum_set_word d _ _ m n i hm hl, checksum_bytes cs h]

theorem ipHeaderSum_eq (data : List UInt8) :
    ipHeaderSum data = wsum ((data.set 10 0).set 11 0) 0 10 := by
  have := sumLoop_eq data 20 10 20 0 0 (by norm_num) (by norm_num) (by norm_num)
  simpa [ipHeaderSum] using this

theorem ipv4HeaderCheck_sum (out : List UInt8) (h : 20 ≤ out.length) :
    (wordsBE (out.take 20)).sum = wsum out 0 10 := by
  rw [wordsBE_sum]
  have e : ((List.take 20 out).length + 1) / 2 = 10 := by
    simp [List.length_take, Nat.min_eq_left h]
  rw [e]
  apply wsum_congr
  intro j _ h2
  exact byteAt_take _ _ _ (by omega)


/-- Claim C7. IPv4 header checksum validity: for every packet buffer of at least 40
bytes, `send` returns, and in the buffer it hands to `Sendto` the one's-complement
sum of the ten big-endian words of bytes 0..19, the written checksum included,
folds to 0xFFFF. -/
theorem send_ipv4_checksum_valid (data : List UInt8) (h : 40 ≤ data.length) :
    ∃ out, Stack.send data = some out ∧ ipv4HeaderCheck out = 0xFFFF := by
  obtain ⟨r1, r2, a1, b1, c1, _, _, _, _, _, hs⟩ := send_eq data (by omega)
  refine ⟨_, hs, ?_⟩
  have hsum : (wordsBE ((putWord (putWord data 10 (65535 - r1)) 36 (65535 - r2)).take 20)).sum
      = ipHeaderSum data + (65535 - r1) := by
    rw [ipv4HeaderCheck_sum _ (by simp only [length_putWord]; omega)]
    rw [wsum_congr _ (putWord data 10 (65535 - r1)) 10 0
      (fun j _ hj => byteAt_putWord _ _ _ _ (by omega) (by omega))]
    have := wsum_putWord data (65535 - r1) 0 5 10 (by omega) (by norm_num) (by omega)
    simp only [Nat.zero_add, Nat.reduceMul] at this
    rw [this, ipHeaderSum_eq]
  obtain ⟨p, q⟩ := complement_closes _ _ a1 b1 c1
  unfold ipv4HeaderCheck
  apply onesComplementSum_of_multiple
  · rw [hsum]; exact p
  · rw [hsum]; exact q


/-- Without overflow, `tcpSum` is the pseudo-header plus the word sum of the TCP
segment with the checksum field zeroed. -/
theorem tcpSum_eq (d : List UInt8) (h40 : 40 ≤ d.length) (hL : d.length ≤ 65535) :
    tcpSum d = wsum d 12 4 + 6 + (d.length - 20)
      + wsum ((d.set 36 0).set 37 0) 20 ((d.length - 19) / 2) := by
  have b12 := byteAt_lt d 12
  have b13 := byteAt_lt d 13
  have b14 := byteAt_lt d 14
  have b15 := byteAt_lt d 15
  have b16 := byteAt_lt d 16
  have b17 := byteAt_lt d 17
  have b18 := byteAt_lt d 18
  have b19 := byteAt_lt d 19
  have hp : wsum d 12 4 = (byteAt d 12 + byteAt d 14) * 256 + (byteAt d 13 + byteAt d 15)
      + (byteAt d 16 + byteAt d 18) * 256 + (byteAt d 17 + byteAt d 19) := by
    simp only [wsum, Nat.reduceAdd]
    omega
  have hc : u32 (u32 (u32 (u32 (u32 (u32 (u32 (0 +
        u32 (u32 (byteAt d 12 + byteAt d 14) <<< 8)) +
        u32 (byteAt d 13 + byteAt d 15)) +
        u32 (u32 (byteAt d 16 + byteAt d 18) <<< 8)) +
        u32 (byteAt d 17 + byteAt d 19)) + 6) +
        u32 (d.length - 20) % 65536) + (u32 (d.length - 20) >>> 16))
      = wsum d 12 4 + 6 + (d.length - 20) := by
    rw [hp]
    simp only [u32, Nat.shiftLeft_eq, Nat.shiftRight_eq_div_pow]
    omega
  have hw := wsum_le ((d.set 36 0).set 37 0) ((d.length - 20) / 2) 20
  have hp4 := wsum_le d 4 12
  have hloop := sumLoop_eq d (d.length - 1) 36 d.length 20
    (wsum d 12 4 + 6 + (d.length - 20)) (by norm_num) (by omega) (by omega)
  have en : (d.length - 1 + 1 - 20) / 2 = (d.length - 20) / 2 := by omega
  rw [en] at hloop
  simp only [Nat.reduceAdd] at hloop
  unfold tcpSum
  simp only []
  rw [hc, hloop]
  by_cases hodd : d.length % 2 = 1
  · rw [if_pos hodd]
    have e1 : (d.length - 19) / 2 = (d.length - 20) / 2 + 1 := by omega
    rw [e1, wsum_add]
    have e2 : 20 + 2 * ((d.length - 20) / 2) = d.length - 1 := by omega
    rw [e2]
    have w1 : ∀ (l : List UInt8) (i : Nat),
        wsum l i 1 = byteAt l i * 256 + byteAt l (i + 1) := by
      intro l i; simp [wsum]
    rw [w1]
    have e3 : d.length - 1 + 1 = d.length := by omega
    rw [e3, byteAt_set _ _ _ _ (by omega), byteAt_set _ _ _ _ (by omega),
      byteAt_of_le _ d.length (by simp)]
    have bl := byteAt_lt d (d.length - 1)
    simp only [u32, Nat.shiftLeft_eq]
    omega
  · rw [if_neg hodd]
    have e1 : (d.length - 19) / 2 = (d.length - 20) / 2 := by omega
    rw [e1]

theorem tcpSegmentCheck_sum (out : List UInt8) (h : 20 ≤ out.length) :
    (wordsBE ((out.take 20).drop 12) ++ [6, out.length - 20] ++ wordsBE (out.drop 20)).sum
      = wsum out 12 4 + 6 + (out.length - 20) + wsum out 20 ((out.length - 19) / 2) := by
  have e1 : (wordsBE ((out.take 20).drop 12)).sum = wsum out 12 4 := by
    rw [wordsBE_sum, wsum_shift]
    have e : (((List.take 20 out).drop 12).length + 1) / 2 = 4 := by
      simp [List.length_take, Nat.min_eq_left h]
    rw [e]
    apply wsum_congr
    intro j _ h2
    exact byteAt_take _ _ _ (by omega)
  have e2 : (wordsBE (out.drop 20)).sum = wsum out 20 ((out.length - 19) / 2) := by
    rw [wordsBE_sum, wsum_shift]
    have e : ((List.drop 20 out).length + 1) / 2 = (out.length - 19) / 2 := by
      simp only [List.length_drop]; omega
    rw [e]
  simp only [List.sum_append, List.sum_cons, List.sum_nil, e1, e2]
  omega

/-- Claim C8. TCP checksum validity: for every packet buffer of length L with
40 <= L <= 65535, even or odd, `send` returns, and in the buffer it hands to
`Sendto` the one's-complement sum of the pseudo-header (bytes 12..19, protocol 6,
TCP length L - 20) and of the big-endian words of bytes 20..L-1 (odd last byte
zero-padded, written checksum included) folds to 0xFFFF. -/
theorem send_tcp_checksum_valid (data : List UInt8) (h : 40 ≤ data.length)
    (hL : data.length ≤ 65535) :
    ∃ out, Stack.send data = some out ∧ tcpSegmentCheck out = 0xFFFF := by
  obtain ⟨r1, r2, _, _, _, a2, b2, c2, _, _, hs⟩ := send_eq data (by omega)
  refine ⟨_, hs, ?_⟩
  have l1 : (putWord data 10 (65535 - r1)).length = data.length := length_putWord _ _ _
  have hsum : (wordsBE (((putWord (putWord data 10 (65535 - r1)) 36 (65535 - r2)).take 20).drop 12)
        ++ [6, (putWord (putWord data 10 (65535 - r1)) 36 (65535 - r2)).length - 20]
        ++ wordsBE ((putWord (putWord data 10 (65535 - r1)) 36 (65535 - r2)).drop 20)).sum
      = tcpSum (putWord data 10 (65535 - r1)) + (65535 - r2) := by
    rw [tcpSegmentCheck_sum _ (by simp only [length_putWord]; omega),
      tcpSum_eq _ (by omega) (by omega)]
    simp only [length_putWord]
    rw [wsum_congr (putWord (putWord data 10 (65535 - r1)) 36 (65535 - r2))
      (putWord data 10 (65535 - r1)) 4 12
      (fun j _ hj => byteAt_putWord _ _ _ _ (by omega) (by omega))]
    have := wsum_putWord (putWord data 10 (65535 - r1)) (65535 - r2) 20 8
      ((data.length - 19) / 2) (by omega) (by omega) (by omega)
    simp only [Nat.reduceMul, Nat.reduceAdd] at this
    rw [this]
    omega
  obtain ⟨p, q⟩ := complement_closes _ _ a2 b2 c2
  unfold tcpSegmentCheck
  apply onesComplementSum_of_multiple
  · rw [hsum]; exact p
  · rw [hsum]; exact q


theorem ipHeaderSum_congr (d e : List UInt8)
    (h : ∀ j, j ≤ 20 → j ≠ 10 → j ≠ 11 → byteAt d j = byteAt e j) :
    ipHeaderSum d = ipHeaderSum e := by
  unfold ipHeaderSum
  exact sumLoop_congr d e 20 10 0 (fun j _ h1 h2 h3 => h j h1 h2 h3) 20 0 0
    (Nat.le_refl _) (by norm_num)

theorem tcpSum_congr (d e : List UInt8) (hl : d.length = e.length) (h40 : 40 ≤ d.length)
    (h : ∀ j, 12 ≤ j → j ≠ 36 → j ≠ 37 → byteAt d j = byteAt e j) :
    tcpSum d = tcpSum e := by
  unfold tcpSum
  simp only []
  rw [h 12 (by omega) (by omega) (by omega), h 13 (by omega) (by omega) (by omega),
    h 14 (by omega) (by omega) (by omega), h 15 (by omega) (by omega) (by omega),
    h 16 (by omega) (by omega) (by omega), h 17 (by omega) (by omega) (by omega),
    h 18 (by omega) (by omega) (by omega), h 19 (by omega) (by omega) (by omega),
    h (d.length - 1) (by omega) (by omega) (by omega), hl]
  rw [sumLoop_congr d e (e.length - 1) 36 20
    (fun j h1 _ h2 h3 => h j (by omega) h2 h3) e.length 20 _ (Nat.le_refl _) (by norm_num)]

/-- The four checksum bytes of the input do not reach the output of `send`. -/
theorem send_overwrite (data : List UInt8) (h : 40 ≤ data.length) (a b c d : UInt8) :
    Stack.send ((((data.set 10 a).set 11 b).set 36 c).set 37 d) = Stack.send data := by
  have hb : ∀ j, j ≠ 10 → j ≠ 11 → j ≠ 36 → j ≠ 37 →
      byteAt ((((data.set 10 a).set 11 b).set 36 c).set 37 d) j = byteAt data j := by
    intro j h1 h2 h3 h4
    rw [byteAt_set _ _ _ _ h4, byteAt_set _ _ _ _ h3, byteAt_set _ _ _ _ h2,
      byteAt_set _ _ _ _ h1]
  have hlen : ((((data.set 10 a).set 11 b).set 36 c).set 37 d).length = data.length := by simp
  obtain ⟨r1, r2, _, _, _, _, _, _, f1, f2, hs⟩ := send_eq data (by omega)
  obtain ⟨r1', r2', _, _, _, _, _, _, f1', f2', hs'⟩ :=
    send_eq ((((data.set 10 a).set 11 b).set 36 c).set 37 d) (by omega)
  have e1 : ipHeaderSum ((((data.set 10 a).set 11 b).set 36 c).set 37 d) = ipHeaderSum data :=
    ipHeaderSum_congr _ _ (fun j h1 h2 h3 => hb j h2 h3 (by omega) (by omega))
  rw [e1, f1] at f1'
  have er1 : r1' = r1 := (Option.some.inj f1').symm
  subst er1
  have e2 : tcpSum (putWord ((((data.set 10 a).set 11 b).set 36 c).set 37 d) 10 (65535 - r1'))
      = tcpSum (putWord data 10 (65535 - r1')) := by
    apply tcpSum_congr
    · simp [length_putWord]
    · simp only [length_putWord, hlen]; exact h
    · intro j h1 h2 h3
      rw [byteAt_putWord _ _ _ _ (by omega) (by omega),
        byteAt_putWord _ _ _ _ (by omega) (by omega)]
      exact hb j (by omega) (by omega) h2 h3
  rw [e2, f2] at f2'
  have er2 : r2' = r2 := (Option.some.inj f2').symm
  subst er2
  rw [hs, hs']
  congr 1
  apply List.ext_getElem?
  intro n
  simp only [putWord, List.getElem?_set, List.length_set]
  split_ifs <;> rfl

/-- Claim C9. Checksum fields are treated as zero and only they are written: for every
packet buffer of at least 40 bytes, `send` returns a buffer of the same length
that differs from the input at no offset other than 10, 11, 36 and 37; the
result is the same whatever the input held at those four offsets; and applying
the update to its own result changes nothing. -/
theorem send_touches_only_checksum_fields (data : List UInt8) (h : 40 ≤ data.length) :
    ∃ out, Stack.send data = some out ∧ out.length = data.length ∧
      (∀ i, i ≠ 10 → i ≠ 11 → i ≠ 36 → i ≠ 37 → out[i]? = data[i]?) ∧
      (∀ a b c d : UInt8,
        Stack.send ((((data.set 10 a).set 11 b).set 36 c).set 37 d) = some out) ∧
      Stack.send out = some out := by
  obtain ⟨r1, r2, _, _, _, _, _, _, _, _, hs⟩ := send_eq data (by omega)
  refine ⟨_, hs, by simp [length_putWord], ?_, ?_, ?_⟩
  · intro i h1 h2 h3 h4
    simp only [putWord, List.getElem?_set]
    split_ifs <;> first | rfl | omega
  · intro a b c d
    rw [send_overwrite data h, hs]
  · have := send_overwrite data h (UInt8.ofNat (((65535 - r1) >>> 8) &&& 0xFF))
      (UInt8.ofNat ((65535 - r1) &&& 0xFF)) (UInt8.ofNat (((65535 - r2) >>> 8) &&& 0xFF))
      (UInt8.ofNat ((65535 - r2) &&& 0xFF))
    simp only [putWord]
    rw [this, hs]
    simp only [putWord]


/-! ## The segment handler -/

theorem handleTCP_of_find (table : StateTable) (i : Nat) (f : State) (iph : ipv4.Header)
    (th : tcp.Header)
    (hfind : table.find iph.Src iph.Dst th.Source th.Destination = some i)
    (hf : table[i]? = some f) :
    Stack.handleTCP table iph th
      = { table := table.set i (handleState f iph th).state,
          sent := (handleState f iph th).sent, ret := (handleState f iph th).ret } := by
  simp only [Stack.handleTCP, hfind, hf]

theorem set_getElem?_self {α : Type} (l : List α) (i : Nat) (a : α) (h : l[i]? = some a) :
    l.set i a = l := by
  apply List.ext_getElem?
  intro n
  rw [List.getElem?_set]
  split_ifs with h1 h2
  · subst h1; exact h.symm
  · subst h1
    have := List.getElem?_eq_none (Nat.le_of_not_lt h2)
    rw [this] at h
    exact absurd h (by simp)
  · rfl

/-- Below 32, a mask sees only the low five bits of the control field. -/
theorem land_mod32 (c m : Nat) (hm : m < 32) : c &&& m = (c % 32) &&& m := by
  apply Nat.eq_of_testBit_eq
  intro j
  have e : (32 : Nat) = 2 ^ 5 := by norm_num
  rw [Nat.testBit_and, Nat.testBit_and, e, Nat.testBit_mod_two_pow]
  by_cases hj : j < 5
  · simp [hj]
  · have : m.testBit j = false := by
      apply Nat.testBit_lt_two_pow
      calc m < 2 ^ 5 := by omega
        _ ≤ 2 ^ j := Nat.pow_le_pow_right (by norm_num) (by omega)
    simp [this]

/-- SYN and ACK both set is what the test `HasFlag(tcp.SYN | tcp.ACK)` asks. -/
theorem hasFlag_syn_ack (th : tcp.Header) :
    th.HasFlag (tcp.SYN ||| tcp.ACK) = (th.HasFlag tcp.SYN && th.HasFlag tcp.ACK) := by
  have key : ∀ r : Nat, r < 32 →
      (r &&& 18 == 18) = ((r &&& 2 == 2) && (r &&& 16 == 16)) := by decide
  have h := key (th.Ctrl % 32) (Nat.mod_lt _ (by norm_num))
  simp only [tcp.Header.HasFlag, tcp.SYN, tcp.ACK]
  rw [land_mod32 th.Ctrl 2 (by norm_num), land_mod32 th.Ctrl 16 (by norm_num)]
  have e : (2 ||| 16 : Nat) = 18 := by decide
  rw [e, land_mod32 th.Ctrl 18 (by norm_num)]
  exact h

theorem close_eq (c : Connection) : c.close = { c with closed := true } := by
  unfold Connection.close
  split_ifs with h
  · cases c; simp_all
  · rfl

/-- Claim C1. Handshake completion: for every flow in SYN_SENT with `RecvNext = 0` that
the table lookup maps the segment to, and every inbound segment without RST and
with SYN and ACK both set, `handleTCP` returns nil and emits exactly one segment:
control field ACK only, `seq = SendNext`, `ack = s + k + 1 (mod 2^32)` for sequence
number `s` and payload length `k`, inbound addresses and ports swapped. In the flow
`SendNext` is unchanged, `RecvNext` is that acknowledgement number, the connected
signal is posted and the socket state is ESTABLISHED. -/
theorem handleTCP_completes_handshake (table : StateTable) (i : Nat) (f : State)
    (iph : ipv4.Header) (th : tcp.Header)
    (hfind : table.find iph.Src iph.Dst th.Source th.Destination = some i)
    (hf : table[i]? = some f)
    (hstate : f.SocketState = .SocketSynSent) (hrecv : f.RecvNext = 0)
    (hrst : th.HasFlag tcp.RST = false)
    (hsyn : th.HasFlag tcp.SYN = true) (hack : th.HasFlag tcp.ACK = true) :
    Stack.handleTCP table iph th
      = { table := table.set i
            { f with RecvNext := (th.SeqNum + th.Payload.length + 1) % 2 ^ 32,
                     SocketState := .SocketEstablished,
                     ID := wrapInt (f.ID + 1),
                     Conn := { f.Conn with Connected := true } },
          sent := [{ iph := { Version := 4, Len := 20, TOS := 0, TotalLen := 52, ID := f.ID,
                              Flags := 2, TTL := 128, Protocol := 6, Src := iph.Dst,
                              Dst := iph.Src, Options := [] },
                     th := { Source := th.Destination, Destination := th.Source,
                             SeqNum := f.SendNext,
                             AckNum := (th.SeqNum + th.Payload.length + 1) % 2 ^ 32,
                             DataOffset := 5, Reserved := 0, ECN := 0, Ctrl := tcp.ACK,
                             Window := 64420, Checksum := 0, Urgent := 0, Options := [],
                             Payload := [] } }],
          ret := .nil } := by
  have hsa : th.HasFlag (tcp.SYN ||| tcp.ACK) = true := by
    rw [hasFlag_syn_ack, hsyn, hack]; rfl
  have hnum : u32 (u32 (th.SeqNum + u32 th.Payload.length) + 1)
      = (th.SeqNum + th.Payload.length + 1) % 2 ^ 32 := by
    simp only [u32]; omega
  rw [handleTCP_of_find table i f iph th hfind hf]
  simp [handleState, dispatch, advance, hrst, hsyn, hsa, hstate, hrecv, reply, hnum]


/-- Claim C2. Out-of-order drop: for every flow whose `RecvNext` is non-zero and every
inbound segment without RST that the lookup maps to it and whose sequence number
differs from `RecvNext`, `handleTCP` leaves the whole table, and so every field of
the flow, unchanged, emits no segment and returns nil. -/
theorem handleTCP_drops_out_of_order (table : StateTable) (i : Nat) (f : State)
    (iph : ipv4.Header) (th : tcp.Header)
    (hfind : table.find iph.Src iph.Dst th.Source th.Destination = some i)
    (hf : table[i]? = some f)
    (hrecv : f.RecvNext ≠ 0) (hrst : th.HasFlag tcp.RST = false)
    (hseq : th.SeqNum ≠ f.RecvNext) :
    Stack.handleTCP table iph th = { table := table, sent := [], ret := .nil } := by
  rw [handleTCP_of_find table i f iph th hfind hf]
  have hne : ¬ f.RecvNext = th.SeqNum := fun h => hseq h.symm
  simp [handleState, hrst, hrecv, hne, set_getElem?_self table i f hf]

/-- An accepted segment reaches the dispatch with `RecvNext` set from its sequence
number and advanced. -/
theorem handleState_accepted (f : State) (iph : ipv4.Header) (th : tcp.Header)
    (hrst : th.HasFlag tcp.RST = false) (hord : f.RecvNext = 0 ∨ f.RecvNext = th.SeqNum) :
    handleState f iph th = dispatch (advance { f with RecvNext := th.SeqNum } th) iph th := by
  have hadopt : (if f.RecvNext = 0 then { f with RecvNext := th.SeqNum } else f)
      = { f with RecvNext := th.SeqNum } := by
    rcases hord with h | h
    · simp [h]
    · split_ifs
      · rfl
      · cases f; simp_all
  simp [handleState, hrst, hadopt]

theorem advance_recvNext (s : State) (th : tcp.Header) :
    (advance s th).RecvNext
      = (s.RecvNext + th.Payload.length
          + (if th.HasFlag tcp.SYN || th.HasFlag tcp.FIN then 1 else 0)) % 2 ^ 32 := by
  unfold advance
  split_ifs
  · simp only [u32]; omega
  · simp only [u32]; omega

theorem dispatch_recvNext (s : State) (iph : ipv4.Header) (th : tcp.Header) :
    (dispatch s iph th).state.RecvNext = s.RecvNext := by
  unfold dispatch
  cases h : s.SocketState <;> simp only [] <;> split_ifs <;> rfl


/-- Claim C3. Receive-window advance: for every flow and every inbound segment without
RST that the lookup maps to it and that is accepted as in order (its sequence number
`s` equals `RecvNext`, or `RecvNext` is 0), in every socket state, the flow is still
the entry of the table after `handleTCP` and its `RecvNext` is
`s + len(payload) + d` modulo 2^32, with `d = 1` when the segment carries SYN or FIN
(1 also when it carries both) and `d = 0` otherwise. -/
theorem handleTCP_advances_recvNext (table : StateTable) (i : Nat) (f : State)
    (iph : ipv4.Header) (th : tcp.Header)
    (hfind : table.find iph.Src iph.Dst th.Source th.Destination = some i)
    (hf : table[i]? = some f)
    (hrst : th.HasFlag tcp.RST = false)
    (hord : th.SeqNum = f.RecvNext ∨ f.RecvNext = 0) :
    ∃ g, (Stack.handleTCP table iph th).table[i]? = some g ∧
      g.RecvNext = (th.SeqNum + th.Payload.length
        + (if th.HasFlag tcp.SYN || th.HasFlag tcp.FIN then 1 else 0)) % 2 ^ 32 := by
  have hi : i < table.length := by
    by_contra hc
    rw [List.getElem?_eq_none (Nat.le_of_not_lt hc)] at hf
    exact absurd hf (by simp)
  refine ⟨(handleState f iph th).state, ?_, ?_⟩
  · rw [handleTCP_of_find table i f iph th hfind hf]
    simp [List.getElem?_set, hi]
  · rw [handleState_accepted f iph th hrst (by rcases hord with h | h <;> simp [h]),
      dispatch_recvNext, advance_recvNext]

/-- What `dispatch` emits in ESTABLISHED. -/
theorem dispatch_established_sent (s : State) (iph : ipv4.Header) (th : tcp.Header)
    (hs : s.SocketState = .SocketEstablished) :
    (th.Ctrl = tcp.ACK → (dispatch s iph th).sent = []) ∧
    (th.Ctrl ≠ tcp.ACK → ∃ rest, (dispatch s iph th).sent = replyNew s iph th :: rest ∧
      (th.HasFlag tcp.FIN = false → rest = [])) := by
  constructor
  · intro hc
    have hfin : th.HasFlag tcp.FIN = false := by
      simp [tcp.Header.HasFlag, hc, tcp.ACK, tcp.FIN]
    unfold dispatch
    simp only [hs, hc, hfin, if_true, Bool.false_eq_true, if_false]
    split_ifs <;> rfl
  · intro hc
    unfold dispatch
    simp only [hs, hc, if_false]
    split_ifs <;>
      first
      | exact ⟨[], rfl, fun _ => rfl⟩
      | exact ⟨_, rfl, fun h => by simp_all⟩

/-- Claim C4 as stated fails. The flow is ESTABLISHED with `RecvNext` 9001; the
segment is in order (sequence number 9001), carries no RST and a one-byte payload,
and its control field is ACK alone: `handleTCP` emits nothing, so this payload is
not acknowledged. -/
theorem established_ack_only_payload_unacknowledged :
    StateTable.find [established] fromPeer.Src fromPeer.Dst
        (peerSegment 9001 tcp.ACK [0x48]).Source (peerSegment 9001 tcp.ACK [0x48]).Destination
      = some 0 ∧
    established.SocketState = .SocketEstablished ∧
    (peerSegment 9001 tcp.ACK [0x48]).HasFlag tcp.RST = false ∧
    (peerSegment 9001 tcp.ACK [0x48]).SeqNum = established.RecvNext ∧
    (peerSegment 9001 tcp.ACK [0x48]).Payload ≠ [] ∧
    (Stack.handleTCP [established] fromPeer (peerSegment 9001 tcp.ACK [0x48])).sent = [] := by
  decide

/-- Claim C4, amended. Acknowledgement rule in ESTABLISHED: for every flow in ESTABLISHED
and every in-order inbound segment without RST that the lookup maps to it,
`handleTCP` emits nothing when the control field is exactly ACK, with or without
payload; for every other control field the first segment it emits is an
acknowledgement with control field ACK, `seq = SendNext`, `ack` = the advanced
`RecvNext` and the inbound addresses and ports swapped, and it is the only one
unless the segment carries FIN. -/
theorem handleTCP_established_ack_rule (table : StateTable) (i : Nat) (f : State)
    (iph : ipv4.Header) (th : tcp.Header)
    (hfind : table.find iph.Src iph.Dst th.Source th.Destination = some i)
    (hf : table[i]? = some f)
    (hstate : f.SocketState = .SocketEstablished)
    (hrst : th.HasFlag tcp.RST = false)
    (hord : th.SeqNum = f.RecvNext ∨ f.RecvNext = 0) :
    (th.Ctrl = tcp.ACK → (Stack.handleTCP table iph th).sent = []) ∧
    (th.Ctrl ≠ tcp.ACK → ∃ rest,
      (Stack.handleTCP table iph th).sent
        = { iph := { ipv4.New with Src := iph.Dst, Dst := iph.Src, ID := f.ID },
            th := { Source := th.Destination, Destination := th.Source,
                    SeqNum := f.SendNext,
                    AckNum := (th.SeqNum + th.Payload.length
                      + (if th.HasFlag tcp.SYN || th.HasFlag tcp.FIN then 1 else 0)) % 2 ^ 32,
                    DataOffset := 5, Reserved := 0, ECN := 0, Ctrl := tcp.ACK,
                    Window := 64420, Checksum := 0, Urgent := 0, Options := [],
                    Payload := [] } } :: rest ∧
      (th.HasFlag tcp.FIN = false → rest = [])) := by
  have hacc := handleState_accepted f iph th hrst (by rcases hord with h | h <;> simp [h])
  have hadv : (advance { f with RecvNext := th.SeqNum } th).SocketState
      = .SocketEstablished := by
    unfold advance; split_ifs <;> exact hstate
  have hrep : replyNew (advance { f with RecvNext := th.SeqNum } th) iph th
      = { iph := { ipv4.New with Src := iph.Dst, Dst := iph.Src, ID := f.ID },
          th := { Source := th.Destination, Destination := th.Source,
                  SeqNum := f.SendNext,
                  AckNum := (th.SeqNum + th.Payload.length
                    + (if th.HasFlag tcp.SYN || th.HasFlag tcp.FIN then 1 else 0)) % 2 ^ 32,
                  DataOffset := 5, Reserved := 0, ECN := 0, Ctrl := tcp.ACK,
                  Window := 64420, Checksum := 0, Urgent := 0, Options := [],
                  Payload := [] } } := by
    have h1 := advance_recvNext { f with RecvNext := th.SeqNum } th
    have h2 : (advance { f with RecvNext := th.SeqNum } th).SendNext = f.SendNext := by
      unfold advance; split_ifs <;> rfl
    have h3 : (advance { f with RecvNext := th.SeqNum } th).ID = f.ID := by
      unfold advance; split_ifs <;> rfl
    simp only [replyNew, h1, h2, h3]
  obtain ⟨a, b⟩ := dispatch_established_sent _ iph th hadv
  rw [handleTCP_of_find table i f iph th hfind hf, hacc]
  refine ⟨a, fun hc => ?_⟩
  obtain ⟨rest, e, hr⟩ := b hc
  exact ⟨rest, by rw [← hrep]; exact e, hr⟩

/-- Claim C10. RST handling: for every flow in any socket state and every inbound segment
carrying RST that the lookup maps to it, whatever its sequence number, `handleTCP`
closes the byte-stream of the flow (`closed` set, which stands for `Recv` closed),
sets the socket state to CLOSED, emits no segment, returns nil and changes no other
field, `RecvNext` and `SendNext` included. -/
theorem handleTCP_rst_closes (table : StateTable) (i : Nat) (f : State)
    (iph : ipv4.Header) (th : tcp.Header)
    (hfind : table.find iph.Src iph.Dst th.Source th.Destination = some i)
    (hf : table[i]? = some f)
    (hrst : th.HasFlag tcp.RST = true) :
    Stack.handleTCP table iph th
      = { table := table.set i { f with Conn := { f.Conn with closed := true },
                                        SocketState := .SocketClosed },
          sent := [], ret := .nil } := by
  rw [handleTCP_of_find table i f iph th hfind hf]
  simp [handleState, hrst, close_eq]


theorem advance_conn (s : State) (th : tcp.Header) : (advance s th).Conn = s.Conn := by
  unfold advance; split_ifs <;> rfl

theorem advance_socketState (s : State) (th : tcp.Header) :
    (advance s th).SocketState = s.SocketState := by
  unfold advance; split_ifs <;> rfl

theorem close_buffer (c : Connection) : c.close.buffer = c.buffer := by
  rw [close_eq]

/-- The only place where `dispatch` touches the receive buffer is the append in
ESTABLISHED. -/
theorem dispatch_buffer (s : State) (iph : ipv4.Header) (th : tcp.Header) :
    (dispatch s iph th).state.Conn.buffer
      = s.Conn.buffer ++ (if s.SocketState = .SocketEstablished then th.Payload else []) := by
  have hnil : ¬ th.Payload.length > 0 → th.Payload = [] := fun h =>
    List.length_eq_zero.mp (by omega)
  unfold dispatch
  cases h : s.SocketState <;>
    simp only [reduceCtorEq, if_false, if_true, List.append_nil] <;>
    (try split_ifs with h1) <;>
    first
    | rfl
    | exact close_buffer _
    | (simp [close_buffer]; exact hnil h1)

theorem handleState_buffer (s : State) (iph : ipv4.Header) (th : tcp.Header) :
    (handleState s iph th).state.Conn.buffer
      = s.Conn.buffer
        ++ (if inOrder s th ∧ s.SocketState = .SocketEstablished then th.Payload else []) := by
  by_cases hrst : th.HasFlag tcp.RST = true
  · simp [handleState, hrst, inOrder, close_buffer]
  · have hrst' : th.HasFlag tcp.RST = false := by simpa using hrst
    by_cases hord : s.RecvNext = 0 ∨ s.RecvNext = th.SeqNum
    · have hin : inOrder s th = true := by
        simp only [inOrder, hrst']
        rcases hord with h | h <;> simp [h]
      rw [handleState_accepted s iph th hrst' hord, dispatch_buffer, advance_conn,
        advance_socketState]
      simp [hin]
    · have h0 : ¬ s.RecvNext = 0 := fun h => hord (Or.inl h)
      have h1 : ¬ s.RecvNext = th.SeqNum := fun h => hord (Or.inr h)
      have hin : inOrder s th = false := by
        simp [inOrder, hrst', h0, h1]
      simp [handleState, hrst', h0, h1, hin]

/-- One step of the run: what a segment appends to the buffer of entry `i`. -/
theorem handleTCP_buffer (table : StateTable) (i : Nat) (iph : ipv4.Header) (th : tcp.Header) :
    ((Stack.handleTCP table iph th).table[i]?).map (fun s => s.Conn.buffer)
      = (table[i]?).map (fun s => s.Conn.buffer ++ establishedPayload table i iph th) := by
  unfold Stack.handleTCP establishedPayload
  cases hfind : table.find iph.Src iph.Dst th.Source th.Destination with
  | none => simp
  | some j =>
    cases hj : table[j]? with
    | none =>
      by_cases hji : j = i
      · subst hji; simp [hj]
      · simp [hj, hji]
    | some s =>
      have hlt : j < table.length := by
        by_contra hc
        rw [List.getElem?_eq_none (Nat.le_of_not_lt hc)] at hj
        exact absurd hj (by simp)
      by_cases hji : j = i
      · subst hji
        simp [hj, List.getElem?_set, hlt, handleState_buffer]
      · simp [hj, List.getElem?_set, hji]

/-- Claim C5 as stated fails. A flow in FIN_WAIT_1 with `RecvNext` 9001 receives an
in-order segment (PSH+ACK, sequence number 9001) with a one-byte payload. The
segment is accepted, `RecvNext` advances to 9002, and the receive buffer stays
empty: it is not the concatenation of the payloads of the accepted segments. -/
theorem fin_wait_payload_not_delivered :
    ((Stack.handleAll [finWait1] [(fromPeer, peerSegment 9001 24 [0x48])])[0]?).map
        (fun s => (s.RecvNext, s.Conn.buffer)) = some (9002, []) ∧
    finWait1.Conn.buffer
        ++ payloadsAlong acceptedPayload 0 [finWait1] [(fromPeer, peerSegment 9001 24 [0x48])]
      = [0x48] := by
  decide

/-- Claim C5, amended. Delivery equals the payloads accepted in ESTABLISHED: for every
table, every entry `i` and every sequence of inbound segments handled by
`handleTCP`, the receive buffer of the entry after the run is its buffer before the
run followed by the concatenation, in order, of the payloads of the segments that
the lookup mapped to the entry and that were accepted as in order while the entry
was ESTABLISHED. -/
theorem handleAll_delivers_established_payloads (table : StateTable) (i : Nat)
    (segs : List (ipv4.Header × tcp.Header)) :
    ((Stack.handleAll table segs)[i]?).map (fun s => s.Conn.buffer)
      = (table[i]?).map
          (fun s => s.Conn.buffer ++ payloadsAlong establishedPayload i table segs) := by
  induction segs generalizing table with
  | nil => simp [Stack.handleAll, payloadsAlong]
  | cons seg rest ih =>
    obtain ⟨iph, th⟩ := seg
    have hstep := handleTCP_buffer table i iph th
    simp only [Stack.handleAll, payloadsAlong]
    by_cases hp : (Stack.handleTCP table iph th).ret = .panicked
    · simp only [hp, if_true, List.append_nil]
      exact hstep
    · simp only [hp, if_false]
      rw [ih (Stack.handleTCP table iph th).table]
      have e : ∀ (o : Option State) (P : List UInt8),
          o.map (fun s => s.Conn.buffer ++ P) = (o.map (fun s => s.Conn.buffer)).map (· ++ P) := by
        intro o P; cases o <;> rfl
      rw [e, hstep]
      cases table[i]? with
      | none => rfl
      | some s => simp [List.append_assoc]

/-- Claim C6. Read preserves order: for every connection whose receive buffer is
non-empty and every destination slice `b`, `Read` returns `n = min(len b, len buffer)`
and no error, the first `n` bytes of the destination are the first `n` bytes of the
buffer, the rest of the destination is untouched, and the buffer left is the old
one without those `n` bytes; hence the bytes returned by successive reads,
concatenated and followed by the buffer left, are the original buffer: a prefix of
the bytes appended, none reordered, repeated or skipped. -/
theorem read_preserves_order (conn : Connection) (b : List UInt8) (ev : RecvEvent)
    (h : conn.buffer ≠ []) :
    (conn.Read b ev).n = min b.length conn.buffer.length ∧
    (conn.Read b ev).err = none ∧
    (conn.Read b ev).b.take (conn.Read b ev).n = conn.buffer.take (conn.Read b ev).n ∧
    (conn.Read b ev).b.drop (conn.Read b ev).n = b.drop (conn.Read b ev).n ∧
    (conn.Read b ev).conn = { conn with buffer := conn.buffer.drop (conn.Read b ev).n } ∧
    ∀ bs : List (List UInt8),
      (readAll conn bs).1 ++ (readAll conn bs).2.buffer = conn.buffer ∧
      List.IsPrefix (readAll conn bs).1 conn.buffer := by
  have hpos : conn.buffer.length > 0 := List.length_pos.mpr h
  have hread : conn.Read b ev
      = { conn := { conn with buffer := conn.buffer.drop (min b.length conn.buffer.length) },
          b := conn.buffer.take (min b.length conn.buffer.length)
                ++ b.drop (min b.length conn.buffer.length),
          n := min b.length conn.buffer.length, err := none } := by
    simp [Connection.Read, hpos, copy]
  have hlen : (conn.buffer.take (min b.length conn.buffer.length)).length
      = min b.length conn.buffer.length := by
    simp [List.length_take]
  have hall : ∀ (bs : List (List UInt8)) (c : Connection),
      (readAll c bs).1 ++ (readAll c bs).2.buffer = c.buffer := by
    intro bs
    induction bs with
    | nil => intro c; simp [readAll]
    | cons d ds ih =>
      intro c
      by_cases hc : c.buffer.length > 0
      · have hr := ih (c.Read d .timeout).conn
        simp only [readAll, hc, if_true, List.append_assoc, hr]
        simp [Connection.Read, hc, copy, List.take_append_drop]
      · have : c.buffer = [] := by
          cases hb : c.buffer with
          | nil => rfl
          | cons x xs => rw [hb] at hc; simp at hc
        simp [readAll, this]
  rw [hread]
  refine ⟨rfl, rfl, ?_, ?_, rfl, fun bs => ⟨hall bs conn, ⟨_, hall bs conn⟩⟩⟩
  · simp only []
    rw [List.take_append_of_le_length (Nat.le_of_eq hlen.symm), List.take_of_length_le
      (Nat.le_of_eq hlen)]
  · simp only []
    rw [List.drop_append_of_le_length (Nat.le_of_eq hlen.symm), List.drop_of_length_le
      (Nat.le_of_eq hlen)]
    simp


/-! ## User actions and the send sequence number -/

theorem getElem?_lt {α : Type} (l : List α) (i : Nat) (a : α) (h : l[i]? = some a) :
    i < l.length := by
  by_contra hc
  rw [List.getElem?_eq_none (Nat.le_of_not_lt hc)] at h
  exact absurd h (by simp)

theorem advance_sendNext (s : State) (th : tcp.Header) :
    (advance s th).SendNext = s.SendNext := by
  unfold advance; split_ifs <;> rfl

/-- The only write to `SendNext` in `dispatch` is the increment after the FIN sent in
ESTABLISHED. -/
theorem dispatch_sendNext (s : State) (iph : ipv4.Header) (th : tcp.Header) :
    (dispatch s iph th).state.SendNext = s.SendNext ∨
      (dispatch s iph th).state.SendNext = u32 (s.SendNext + 1) := by
  unfold dispatch
  cases h : s.SocketState <;> simp only [] <;> (try split_ifs) <;>
    first
    | (left; rfl)
    | (left; trivial)
    | (right; rfl)

theorem handleState_sendNext (f : State) (iph : ipv4.Header) (th : tcp.Header) :
    (handleState f iph th).state.SendNext = f.SendNext ∨
      (handleState f iph th).state.SendNext = u32 (f.SendNext + 1) := by
  by_cases hrst : th.HasFlag tcp.RST = true
  · left; simp [handleState, hrst]
  · have hrst' : th.HasFlag tcp.RST = false := by simpa using hrst
    by_cases hord : f.RecvNext = 0 ∨ f.RecvNext = th.SeqNum
    · rw [handleState_accepted f iph th hrst' hord]
      have h := dispatch_sendNext (advance { f with RecvNext := th.SeqNum } th) iph th
      rw [advance_sendNext] at h
      exact h
    · have h0 : ¬ f.RecvNext = 0 := fun h => hord (Or.inl h)
      have h1 : ¬ f.RecvNext = th.SeqNum := fun h => hord (Or.inr h)
      left; simp [handleState, hrst', h0, h1]

/-- Entry `i` after `handleTCP`: the handled flow when the lookup returns `i`, the
same flow otherwise. -/
theorem handleTCP_entry (table : StateTable) (i : Nat) (f : State) (iph : ipv4.Header)
    (th : tcp.Header) (hf : table[i]? = some f) :
    (Stack.handleTCP table iph th).table[i]? = some f ∨
      (Stack.handleTCP table iph th).table[i]? = some (handleState f iph th).state := by
  have hi := getElem?_lt table i f hf
  cases hfind : table.find iph.Src iph.Dst th.Source th.Destination with
  | none => left; simp [Stack.handleTCP, hfind, hf]
  | some j =>
    cases hj : table[j]? with
    | none => left; simp [Stack.handleTCP, hfind, hj, hf]
    | some s =>
      by_cases hji : j = i
      · subst hji
        rw [hf] at hj
        cases hj
        right
        simp [Stack.handleTCP, hfind, hf, List.getElem?_set, hi]
      · left
        simp [Stack.handleTCP, hfind, hj, List.getElem?_set, hji, hf]

/-- Claim C11 as stated fails. On a flow whose `SendNext` is 4294967295 a user `Close`
leaves `SendNext` at 0: read as an unsigned 32-bit number it decreased. -/
theorem close_wraps_sendNext :
    [atWrap][0]? = some atWrap ∧ atWrap.SendNext = 4294967295 ∧
    ((applyOp [atWrap] 0 .close)[0]?).map (fun s => s.SendNext) = some 0 := by
  decide

/-- Claim C11, amended. `SendNext` moves forward modulo 2^32: for every flow held at an
entry of the table and every operation (an inbound segment handled by `handleTCP`, a
`Write` of any payload, a `Close`), `SendNext` afterwards is the old value or the old
value plus `n` modulo 2^32, where `n` is the payload length for a `Write` and 1
otherwise; so it is greater than or equal to the old value whenever the old value
plus `n` is below 2^32. -/
theorem sendNext_monotone_without_wrap (table : StateTable) (i : Nat) (f : State) (op : Op)
    (hf : table[i]? = some f) :
    ∃ g, (applyOp table i op)[i]? = some g ∧
      (g.SendNext = f.SendNext ∨ g.SendNext = (f.SendNext + op.size) % 2 ^ 32) ∧
      (f.SendNext + op.size < 2 ^ 32 → f.SendNext ≤ g.SendNext) := by
  have hi := getElem?_lt table i f hf
  have key : ∀ g : State,
      (g.SendNext = f.SendNext ∨ g.SendNext = (f.SendNext + op.size) % 2 ^ 32) →
      (f.SendNext + op.size < 2 ^ 32 → f.SendNext ≤ g.SendNext) := by
    intro g h hlt
    rcases h with h | h
    · omega
    · rw [h, Nat.mod_eq_of_lt hlt]; omega
  cases op with
  | segment iph th =>
    have hs := handleState_sendNext f iph th
    rcases handleTCP_entry table i f iph th hf with h | h
    · exact ⟨f, h, Or.inl rfl, fun _ => Nat.le_refl _⟩
    · have hd : (handleState f iph th).state.SendNext = f.SendNext ∨
          (handleState f iph th).state.SendNext
            = (f.SendNext + (Op.segment iph th).size) % 2 ^ 32 := by
        simpa [Op.size, u32] using hs
      exact ⟨_, h, hd, key _ hd⟩
  | write b =>
    have hd : (Connection.Write f b).state.SendNext = f.SendNext ∨
        (Connection.Write f b).state.SendNext = (f.SendNext + (Op.write b).size) % 2 ^ 32 := by
      unfold Connection.Write
      split_ifs
      · exact Or.inl rfl
      · right
        simp only [Op.size, u32]
        omega
    exact ⟨_, by simp [applyOp, hf, List.getElem?_set, hi], hd, key _ hd⟩
  | close =>
    have hd : (Connection.Close f).state.SendNext = f.SendNext ∨
        (Connection.Close f).state.SendNext = (f.SendNext + Op.close.size) % 2 ^ 32 := by
      unfold Connection.Close
      split_ifs
      · exact Or.inl rfl
      · exact Or.inr rfl
    exact ⟨_, by simp [applyOp, hf, List.getElem?_set, hi], hd, key _ hd⟩

/-- Claim C12. Write effect: for every connection that is neither closing nor closed
and every payload `b`, `Write` emits exactly one segment, with flags PSH+ACK,
`seq` = the flow's `SendNext` before the call, `ack = RecvNext` and payload `b`;
afterwards `SendNext` is the old value plus `len(b)` modulo 2^32 and the IP
identification is the old one plus 1 (`ID++` on Go's `int`: plus 1 for every value
of the type but the largest), no other field of the flow has changed, and `Write`
returns `(len(b), nil)`. -/
theorem write_effect (f : State) (b : List UInt8)
    (hclosing : f.Conn.closing = false) (hclosed : f.Conn.closed = false) :
    Connection.Write f b
      = { state := { f with SendNext := (f.SendNext + b.length) % 2 ^ 32,
                            ID := wrapInt (f.ID + 1) },
          sent := [{ iph := { Version := 4, Len := 20, TOS := 0, TotalLen := 52 + b.length,
                              ID := f.ID, Flags := 2, TTL := 128, Protocol := 6,
                              Src := f.Conn.Src, Dst := f.Conn.Dst, Options := [] },
                     th := { Source := f.Conn.SourcePort,
                             Destination := f.Conn.DestinationPort,
                             SeqNum := f.SendNext, AckNum := f.RecvNext, DataOffset := 5,
                             Reserved := 0, ECN := 0, Ctrl := tcp.PSH ||| tcp.ACK,
                             Window := 64420, Checksum := 0, Urgent := 0, Options := [],
                             Payload := b } }],
          n := b.length, err := none } ∧
    (-9223372036854775808 ≤ f.ID → f.ID < 9223372036854775807 →
      (Connection.Write f b).state.ID = f.ID + 1) := by
  have hnum : u32 (f.SendNext + u32 b.length) = (f.SendNext + b.length) % 2 ^ 32 := by
    simp only [u32]; omega
  have hw : Connection.Write f b
      = { state := { f with SendNext := (f.SendNext + b.length) % 2 ^ 32,
                            ID := wrapInt (f.ID + 1) },
          sent := [{ iph := { Version := 4, Len := 20, TOS := 0, TotalLen := 52 + b.length,
                              ID := f.ID, Flags := 2, TTL := 128, Protocol := 6,
                              Src := f.Conn.Src, Dst := f.Conn.Dst, Options := [] },
                     th := { Source := f.Conn.SourcePort,
                             Destination := f.Conn.DestinationPort,
                             SeqNum := f.SendNext, AckNum := f.RecvNext, DataOffset := 5,
                             Reserved := 0, ECN := 0, Ctrl := tcp.PSH ||| tcp.ACK,
                             Window := 64420, Checksum := 0, Urgent := 0, Options := [],
                             Payload := b } }],
          n := b.length, err := none } := by
    simp [Connection.Write, hclosing, hclosed, hnum]
  refine ⟨hw, fun hlo hid => ?_⟩
  rw [hw]
  simp only [wrapInt]
  omega


/-- Claim C13 as stated fails. The flow left by the dial is in SYN_SENT, not
ESTABLISHED, and neither closing nor closed: `Write` returns no error, emits a
PSH+ACK segment and moves `SendNext` from 1001 to 1002. -/
theorem write_in_syn_sent_succeeds :
    dialled.SocketState = .SocketSynSent ∧
    (Connection.Write dialled [71]).err = none ∧
    (Connection.Write dialled [71]).n = 1 ∧
    (Connection.Write dialled [71]).sent.map (fun p => (p.th.Ctrl, p.th.SeqNum, p.th.Payload))
      = [(tcp.PSH ||| tcp.ACK, 1001, [71])] ∧
    dialled.SendNext = 1001 ∧ (Connection.Write dialled [71]).state.SendNext = 1002 := by
  decide

/-- Claim C13, amended. Write requires a connection that is neither closing nor
closed: for every flow and payload, `Write` returns an error exactly when `closing`
or `closed` is set, and then it returns 0, emits no segment and leaves the flow,
`SendNext` included, unchanged; the socket state is not consulted: replacing it by
any other one changes nothing in what `Write` returns or emits. -/
theorem write_gate_is_closing_or_closed (f : State) (b : List UInt8) :
    ((Connection.Write f b).err ≠ none ↔ (f.Conn.closing = true ∨ f.Conn.closed = true)) ∧
    ((Connection.Write f b).err ≠ none →
      Connection.Write f b
        = { state := f, sent := [], n := 0, err := some .closedConnection }) ∧
    (∀ s : SocketState,
      (Connection.Write { f with SocketState := s } b).err = (Connection.Write f b).err ∧
      (Connection.Write { f with SocketState := s } b).n = (Connection.Write f b).n ∧
      (Connection.Write { f with SocketState := s } b).sent = (Connection.Write f b).sent) := by
  by_cases h : (f.Conn.closing || f.Conn.closed) = true
  · have h2 : f.Conn.closing = true ∨ f.Conn.closed = true := by simpa using h
    refine ⟨?_, ?_, ?_⟩
    · simp [Connection.Write, h, h2]
    · intro _; simp [Connection.Write, h]
    · intro s; simp [Connection.Write, h]
  · have h2 : ¬ (f.Conn.closing = true ∨ f.Conn.closed = true) := by simpa using h
    refine ⟨?_, ?_, ?_⟩
    · simp only [Connection.Write, h]
      simp [h2]
    · intro he
      simp [Connection.Write, h] at he
    · intro s; simp [Connection.Write, h]

theorem close_flags (c : Connection) :
    c.close.closed = true ∧ c.close.closing = c.closing := by
  rw [close_eq]; exact ⟨rfl, rfl⟩

theorem shut_iff (f : State) :
    shut f = true ↔ (f.Conn.closing = true ∨ f.Conn.closed = true) := by
  simp [shut]

/-- No branch of `dispatch` clears `closing` or `closed`. -/
theorem dispatch_shut (s : State) (iph : ipv4.Header) (th : tcp.Header)
    (h : shut s = true) : shut (dispatch s iph th).state = true := by
  rw [shut_iff] at h ⊢
  unfold dispatch
  cases hs : s.SocketState <;> simp only [] <;> (try split_ifs) <;>
    first
    | exact h
    | (rcases h with h | h
       · left; first | exact h | (rw [(close_flags _).2]; exact h)
       · right; first | exact h | exact (close_flags _).1)
    | (left; rfl)

theorem handleState_shut (f : State) (iph : ipv4.Header) (th : tcp.Header)
    (h : shut f = true) : shut (handleState f iph th).state = true := by
  by_cases hrst : th.HasFlag tcp.RST = true
  · rw [shut_iff]
    right
    simp [handleState, hrst, (close_flags f.Conn).1]
  · have hrst' : th.HasFlag tcp.RST = false := by simpa using hrst
    by_cases hord : f.RecvNext = 0 ∨ f.RecvNext = th.SeqNum
    · rw [handleState_accepted f iph th hrst' hord]
      apply dispatch_shut
      rw [shut_iff] at h ⊢
      rw [advance_conn]
      exact h
    · have h0 : ¬ f.RecvNext = 0 := fun h => hord (Or.inl h)
      have h1 : ¬ f.RecvNext = th.SeqNum := fun h => hord (Or.inr h)
      simpa [handleState, hrst', h0, h1] using h

theorem handleTCP_shut (table : StateTable) (i : Nat) (f : State) (iph : ipv4.Header)
    (th : tcp.Header) (hf : table[i]? = some f) (h : shut f = true) :
    ∃ g, (Stack.handleTCP table iph th).table[i]? = some g ∧ shut g = true := by
  rcases handleTCP_entry table i f iph th hf with e | e
  · exact ⟨f, e, h⟩
  · exact ⟨_, e, handleState_shut f iph th h⟩

/-- Once a flow no longer accepts writes, no run of inbound segments changes that. -/
theorem handleAll_shut (segs : List (ipv4.Header × tcp.Header)) :
    ∀ (table : StateTable) (i : Nat) (f : State), table[i]? = some f → shut f = true →
      ∃ g, (Stack.handleAll table segs)[i]? = some g ∧ shut g = true := by
  induction segs with
  | nil => intro table i f hf h; exact ⟨f, by simpa [Stack.handleAll] using hf, h⟩
  | cons seg rest ih =>
    intro table i f hf h
    obtain ⟨iph, th⟩ := seg
    obtain ⟨g, hg, hsg⟩ := handleTCP_shut table i f iph th hf h
    simp only [Stack.handleAll]
    split_ifs
    · exact ⟨g, hg, hsg⟩
    · exact ih _ i g hg hsg

theorem close_shut (f : State) : shut (Connection.Close f).state = true := by
  rw [shut_iff]
  unfold Connection.Close
  split_ifs with h
  · simpa using h
  · left; rfl

theorem write_of_shut (g : State) (b : List UInt8) (h : shut g = true) :
    Connection.Write g b
      = { state := g, sent := [], n := 0, err := some .closedConnection } := by
  have h2 : (g.Conn.closing || g.Conn.closed) = true := h
  simp [Connection.Write, h2]

/-- The peer's FIN accepted in ESTABLISHED leaves the connection closing (or, when the
handler panicked on the closed `Recv`, closed as it was). -/
theorem handleState_fin_shut (f : State) (iph : ipv4.Header) (th : tcp.Header)
    (hstate : f.SocketState = .SocketEstablished) (hrst : th.HasFlag tcp.RST = false)
    (hord : f.RecvNext = 0 ∨ f.RecvNext = th.SeqNum) (hfin : th.HasFlag tcp.FIN = true) :
    shut (handleState f iph th).state = true := by
  have hs : (advance { f with RecvNext := th.SeqNum } th).SocketState
      = .SocketEstablished := by rw [advance_socketState]; exact hstate
  rw [handleState_accepted f iph th hrst hord, shut_iff]
  unfold dispatch
  simp only [hs, hfin, if_true]
  split_ifs <;>
    first
    | (left; rfl)
    | (right; simp_all)

/-- Claim C14. No write after close: for every flow held at an entry of the table,
after `Close` has returned and after any run of inbound segments handled since, every
`Write` returns the error "Writing to a closed connection.", emits no segment and
leaves the flow, `SendNext` and the IP identification included, unchanged; the same
holds after an RST that the lookup mapped to the flow, and after a FIN accepted in
order while the flow was ESTABLISHED. -/
theorem no_write_after_close (table : StateTable) (i : Nat) (f : State)
    (hf : table[i]? = some f) (segs : List (ipv4.Header × tcp.Header)) (b : List UInt8) :
    (∃ g, (Stack.handleAll (table.set i (Connection.Close f).state) segs)[i]? = some g ∧
      Connection.Write g b
        = { state := g, sent := [], n := 0, err := some .closedConnection }) ∧
    (∀ (iph : ipv4.Header) (th : tcp.Header),
      table.find iph.Src iph.Dst th.Source th.Destination = some i →
      th.HasFlag tcp.RST = true →
      ∃ g, (Stack.handleAll (Stack.handleTCP table iph th).table segs)[i]? = some g ∧
        Connection.Write g b
          = { state := g, sent := [], n := 0, err := some .closedConnection }) ∧
    (∀ (iph : ipv4.Header) (th : tcp.Header),
      table.find iph.Src iph.Dst th.Source th.Destination = some i →
      f.SocketState = .SocketEstablished → th.HasFlag tcp.RST = false →
      (th.SeqNum = f.RecvNext ∨ f.RecvNext = 0) → th.HasFlag tcp.FIN = true →
      ∃ g, (Stack.handleAll (Stack.handleTCP table iph th).table segs)[i]? = some g ∧
        Connection.Write g b
          = { state := g, sent := [], n := 0, err := some .closedConnection }) := by
  have hi := getElem?_lt table i f hf
  refine ⟨?_, ?_, ?_⟩
  · obtain ⟨g, hg, hs⟩ := handleAll_shut segs (table.set i (Connection.Close f).state) i
      (Connection.Close f).state (by simp [List.getElem?_set, hi]) (close_shut f)
    exact ⟨g, hg, write_of_shut g b hs⟩
  · intro iph th hfind hrst
    have hsh : shut (handleState f iph th).state = true := by
      rw [shut_iff]; right
      simp [handleState, hrst, (close_flags f.Conn).1]
    obtain ⟨g, hg, hs⟩ := handleAll_shut segs (Stack.handleTCP table iph th).table i
      (handleState f iph th).state
      (by rw [handleTCP_of_find table i f iph th hfind hf]; simp [List.getElem?_set, hi]) hsh
    exact ⟨g, hg, write_of_shut g b hs⟩
  · intro iph th hfind hstate hrst hord hfin
    have hsh := handleState_fin_shut f iph th hstate hrst
      (by rcases hord with h | h <;> simp [h]) hfin
    obtain ⟨g, hg, hs⟩ := handleAll_shut segs (Stack.handleTCP table iph th).table i
      (handleState f iph th).state
      (by rw [handleTCP_of_find table i f iph th hfind hf]; simp [List.getElem?_set, hi]) hsh
    exact ⟨g, hg, write_of_shut g b hs⟩


/-- Claim C15. Close effect: for every connection that is neither closing nor closed,
`Close` emits exactly one segment, with flags FIN+ACK, `seq = SendNext` before the
call, `ack = RecvNext` and no payload, sets `closing`, sets the socket state to
FIN_WAIT_1, advances `SendNext` by 1 (modulo 2^32) and the IP identification by 1
(`ID++` on Go's `int`), changes no other field and returns nil; for a connection that
is already closing or closed, `Close` returns nil, emits nothing and changes no field
of the flow. -/
theorem close_effect (f : State) :
    (f.Conn.closing = false → f.Conn.closed = false →
      Connection.Close f
        = { state := { f with SendNext := (f.SendNext + 1) % 2 ^ 32,
                              SocketState := .SocketFinWait1,
                              ID := wrapInt (f.ID + 1),
                              Conn := { f.Conn with closing := true } },
            sent := [{ iph := { Version := 4, Len := 20, TOS := 0, TotalLen := 52,
                                ID := f.ID, Flags := 2, TTL := 128, Protocol := 6,
                                Src := f.Conn.Src, Dst := f.Conn.Dst, Options := [] },
                       th := { Source := f.Conn.SourcePort,
                               Destination := f.Conn.DestinationPort,
                               SeqNum := f.SendNext, AckNum := f.RecvNext, DataOffset := 5,
                               Reserved := 0, ECN := 0, Ctrl := tcp.FIN ||| tcp.ACK,
                               Window := 64420, Checksum := 0, Urgent := 0, Options := [],
                               Payload := [] } }],
            ret := .nil } ∧
      (-9223372036854775808 ≤ f.ID → f.ID < 9223372036854775807 →
        (Connection.Close f).state.ID = f.ID + 1)) ∧
    ((f.Conn.closing = true ∨ f.Conn.closed = true) →
      Connection.Close f = { state := f, sent := [], ret := .nil }) := by
  constructor
  · intro hclosing hclosed
    have hc : Connection.Close f
        = { state := { f with SendNext := (f.SendNext + 1) % 2 ^ 32,
                              SocketState := .SocketFinWait1,
                              ID := wrapInt (f.ID + 1),
                              Conn := { f.Conn with closing := true } },
            sent := [{ iph := { Version := 4, Len := 20, TOS := 0, TotalLen := 52,
                                ID := f.ID, Flags := 2, TTL := 128, Protocol := 6,
                                Src := f.Conn.Src, Dst := f.Conn.Dst, Options := [] },
                       th := { Source := f.Conn.SourcePort,
                               Destination := f.Conn.DestinationPort,
                               SeqNum := f.SendNext, AckNum := f.RecvNext, DataOffset := 5,
                               Reserved := 0, ECN := 0, Ctrl := tcp.FIN ||| tcp.ACK,
                               Window := 64420, Checksum := 0, Urgent := 0, Options := [],
                               Payload := [] } }],
            ret := .nil } := by
      simp [Connection.Close, hclosing, hclosed, u32]
    refine ⟨hc, fun hlo hid => ?_⟩
    rw [hc]
    simp only [wrapInt]
    omega
  · intro h
    have h2 : (f.Conn.closing || f.Conn.closed) = true := by simpa using h
    simp [Connection.Close, h2]

/-- A segment that carries FIN has a control field other than ACK alone. -/
theorem ctrl_ne_ack_of_fin (th : tcp.Header) (hfin : th.HasFlag tcp.FIN = true) :
    th.Ctrl ≠ tcp.ACK := by
  intro hc
  simp [tcp.Header.HasFlag, hc, tcp.ACK, tcp.FIN] at hfin

theorem accepted_of (f : State) (th : tcp.Header)
    (hord : th.SeqNum = f.RecvNext ∨ f.RecvNext = 0) :
    f.RecvNext = 0 ∨ f.RecvNext = th.SeqNum := by
  rcases hord with h | h
  · exact Or.inr h.symm
  · exact Or.inl h

theorem advance_eq (f : State) (th : tcp.Header) :
    advance { f with RecvNext := th.SeqNum } th
      = { f with RecvNext := (th.SeqNum + th.Payload.length
            + (if th.HasFlag tcp.SYN || th.HasFlag tcp.FIN then 1 else 0)) % 2 ^ 32 } := by
  unfold advance
  split_ifs with h
  · have e : u32 (u32 (th.SeqNum + u32 th.Payload.length) + 1)
        = (th.SeqNum + th.Payload.length + 1) % 2 ^ 32 := by simp only [u32]; omega
    simp [e]
  · have e : u32 (th.SeqNum + u32 th.Payload.length)
        = (th.SeqNum + th.Payload.length + 0) % 2 ^ 32 := by simp only [u32]; omega
    simp [e]

/-- Claim C16. Peer FIN in ESTABLISHED: for every flow in ESTABLISHED and every in-order
inbound segment without RST that carries FIN and that the lookup maps to the flow
(the byte-stream of the flow being open, as it is while ESTABLISHED, or the segment
carrying no payload), `handleTCP` emits the acknowledging ACK segment and after it
one FIN segment with `seq = SendNext` before the step and `ack` = the advanced
`RecvNext`, then advances `SendNext` by exactly 1 (modulo 2^32), sets the socket state
to LAST_ACK and marks the connection closing; the payload carried by the segment has
been appended to the receive buffer. -/
theorem handleTCP_peer_fin_established (table : StateTable) (i : Nat) (f : State)
    (iph : ipv4.Header) (th : tcp.Header)
    (hfind : table.find iph.Src iph.Dst th.Source th.Destination = some i)
    (hf : table[i]? = some f)
    (hstate : f.SocketState = .SocketEstablished)
    (hopen : f.Conn.closed = false ∨ th.Payload = [])
    (hrst : th.HasFlag tcp.RST = false)
    (hord : th.SeqNum = f.RecvNext ∨ f.RecvNext = 0)
    (hfin : th.HasFlag tcp.FIN = true) :
    Stack.handleTCP table iph th
      = { table := table.set i
            { f with RecvNext := (th.SeqNum + th.Payload.length + 1) % 2 ^ 32,
                     SendNext := (f.SendNext + 1) % 2 ^ 32,
                     SocketState := .SocketLastAck,
                     ID := wrapInt (wrapInt (f.ID + 1) + 1),
                     Conn := { f.Conn with closing := true,
                                           buffer := f.Conn.buffer ++ th.Payload } },
          sent := [{ iph := { ipv4.New with Src := iph.Dst, Dst := iph.Src, ID := f.ID },
                     th := { Source := th.Destination, Destination := th.Source,
                             SeqNum := f.SendNext,
                             AckNum := (th.SeqNum + th.Payload.length + 1) % 2 ^ 32,
                             DataOffset := 5, Reserved := 0, ECN := 0, Ctrl := tcp.ACK,
                             Window := 64420, Checksum := 0, Urgent := 0, Options := [],
                             Payload := [] } },
                   { iph := { Version := 4, Len := 20, TOS := 0, TotalLen := 52,
                              ID := wrapInt (f.ID + 1), Flags := 2, TTL := 128,
                              Protocol := 6, Src := iph.Dst, Dst := iph.Src, Options := [] },
                     th := { Source := th.Destination, Destination := th.Source,
                             SeqNum := f.SendNext,
                             AckNum := (th.SeqNum + th.Payload.length + 1) % 2 ^ 32,
                             DataOffset := 5, Reserved := 0, ECN := 0, Ctrl := tcp.FIN,
                             Window := 64420, Checksum := 0, Urgent := 0, Options := [],
                             Payload := [] } }],
          ret := .nil } := by
  have hne := ctrl_ne_ack_of_fin th hfin
  have hd : (th.HasFlag tcp.SYN || th.HasFlag tcp.FIN) = true := by simp [hfin]
  rw [handleTCP_of_find table i f iph th hfind hf,
    handleState_accepted f iph th hrst (accepted_of f th hord), advance_eq]
  simp only [hd, if_true]
  by_cases hp : th.Payload.length > 0
  · have hopen : f.Conn.closed = false := by
      rcases hopen with h | h
      · exact h
      · rw [h] at hp; simp at hp
    simp [dispatch, hstate, hne, hp, hopen, hfin, reply, replyNew, u32]
  · have hnil : th.Payload = [] := List.length_eq_zero.mp (by omega)
    simp [dispatch, hstate, hne, hnil, hfin, reply, replyNew, u32]

/-- The byte-stream of a flow is open while the flow is in SYN_SENT or ESTABLISHED. -/
theorem openWhileConnected_preserved (f : State) (h : openWhileConnected f = true) :
    (∀ iph th, openWhileConnected (handleState f iph th).state = true) ∧
    (∀ b, openWhileConnected (Connection.Write f b).state = true) ∧
    openWhileConnected (Connection.Close f).state = true := by
  have hmk : ∀ g : State, (g.SocketState ≠ .SocketSynSent ∧
      g.SocketState ≠ .SocketEstablished) ∨ g.Conn.closed = false →
      openWhileConnected g = true := by
    intro g hg
    unfold openWhileConnected
    rcases hg with ⟨h1, h2⟩ | h3
    · simp [h1, h2]
    · simp [h3]
  have hdest : (f.SocketState = .SocketSynSent ∨ f.SocketState = .SocketEstablished) →
      f.Conn.closed = false := by
    intro hc
    unfold openWhileConnected at h
    rcases hc with hc | hc <;> simpa [hc] using h
  refine ⟨fun iph th => ?_, fun b => ?_, ?_⟩
  · by_cases hrst : th.HasFlag tcp.RST = true
    · apply hmk; left; simp [handleState, hrst]
    · have hrst' : th.HasFlag tcp.RST = false := by simpa using hrst
      by_cases hord : f.RecvNext = 0 ∨ f.RecvNext = th.SeqNum
      · rw [handleState_accepted f iph th hrst' hord]
        apply hmk
        have hss := advance_socketState { f with RecvNext := th.SeqNum } th
        have hcc := advance_conn { f with RecvNext := th.SeqNum } th
        generalize advance { f with RecvNext := th.SeqNum } th = a at hss hcc
        unfold dispatch
        cases hs : f.SocketState <;> simp only [hs] at hss <;> simp only [hss] <;>
          (try split_ifs) <;>
          first
          | (left; refine ⟨?_, ?_⟩ <;> simp [hss] <;> done)
          | (right; have hd := hdest (Or.inl hs); simp [hcc, hd])
          | (right; have hd := hdest (Or.inr hs); simp [hcc, hd])
      · have h0 : ¬ f.RecvNext = 0 := fun h => hord (Or.inl h)
        have h1 : ¬ f.RecvNext = th.SeqNum := fun h => hord (Or.inr h)
        simpa [handleState, hrst', h0, h1] using h
  · unfold Connection.Write
    split_ifs
    · exact h
    · exact h
  · unfold Connection.Close
    split_ifs
    · exact h
    · apply hmk; left; refine ⟨?_, ?_⟩ <;> simp


/-- Claim C17. FIN_WAIT_1 transitions: for every flow in FIN_WAIT_1 and every in-order
inbound segment without RST that the lookup maps to it: if the segment carries FIN
(with or without ACK) `handleTCP` emits exactly one ACK segment with `seq = SendNext`
and `ack` = the advanced `RecvNext` and sets the state to CLOSING; if it carries ACK
and not FIN it emits nothing and sets the state to FIN_WAIT_2; if it carries neither,
the state stays FIN_WAIT_1 and nothing is emitted. `SendNext` is changed in none of
these cases. -/
theorem handleTCP_fin_wait_1 (table : StateTable) (i : Nat) (f : State)
    (iph : ipv4.Header) (th : tcp.Header)
    (hfind : table.find iph.Src iph.Dst th.Source th.Destination = some i)
    (hf : table[i]? = some f)
    (hstate : f.SocketState = .SocketFinWait1)
    (hrst : th.HasFlag tcp.RST = false)
    (hord : th.SeqNum = f.RecvNext ∨ f.RecvNext = 0) :
    (th.HasFlag tcp.FIN = true →
      Stack.handleTCP table iph th
        = { table := table.set i
              { f with RecvNext := (th.SeqNum + th.Payload.length + 1) % 2 ^ 32,
                       SocketState := .SocketClosing,
                       ID := wrapInt (f.ID + 1) },
            sent := [{ iph := { Version := 4, Len := 20, TOS := 0, TotalLen := 52,
                                ID := f.ID, Flags := 2, TTL := 128, Protocol := 6,
                                Src := iph.Dst, Dst := iph.Src, Options := [] },
                       th := { Source := th.Destination, Destination := th.Source,
                               SeqNum := f.SendNext,
                               AckNum := (th.SeqNum + th.Payload.length + 1) % 2 ^ 32,
                               DataOffset := 5, Reserved := 0, ECN := 0, Ctrl := tcp.ACK,
                               Window := 64420, Checksum := 0, Urgent := 0, Options := [],
                               Payload := [] } }],
            ret := .nil }) ∧
    (th.HasFlag tcp.FIN = false → th.HasFlag tcp.ACK = true →
      Stack.handleTCP table iph th
        = { table := table.set i
              { f with RecvNext := (th.SeqNum + th.Payload.length
                          + (if th.HasFlag tcp.SYN then 1 else 0)) % 2 ^ 32,
                       SocketState := .SocketFinWait2 },
            sent := [], ret := .nil }) ∧
    (th.HasFlag tcp.FIN = false → th.HasFlag tcp.ACK = false →
      Stack.handleTCP table iph th
        = { table := table.set i
              { f with RecvNext := (th.SeqNum + th.Payload.length
                          + (if th.HasFlag tcp.SYN then 1 else 0)) % 2 ^ 32 },
            sent := [], ret := .nil }) := by
  rw [handleTCP_of_find table i f iph th hfind hf,
    handleState_accepted f iph th hrst (accepted_of f th hord), advance_eq]
  refine ⟨fun hfin => ?_, fun hfin hack => ?_, fun hfin hack => ?_⟩
  · simp [dispatch, hstate, hfin, reply]
  · simp [dispatch, hstate, hfin, hack]
  · simp [dispatch, hstate, hfin, hack]

/-- Claim C18. FIN_WAIT_2 transition: for every flow in FIN_WAIT_2 and every in-order
inbound segment without RST that the lookup maps to it, with or without FIN,
`handleTCP` emits exactly one ACK segment with `seq = SendNext` and `ack` = the
advanced `RecvNext`, sets the socket state to CLOSING and closes the byte-stream; a
following `Read` on an empty buffer returns `(0, EOF)` without waiting. -/
theorem handleTCP_fin_wait_2 (table : StateTable) (i : Nat) (f : State)
    (iph : ipv4.Header) (th : tcp.Header)
    (hfind : table.find iph.Src iph.Dst th.Source th.Destination = some i)
    (hf : table[i]? = some f)
    (hstate : f.SocketState = .SocketFinWait2)
    (hrst : th.HasFlag tcp.RST = false)
    (hord : th.SeqNum = f.RecvNext ∨ f.RecvNext = 0) :
    Stack.handleTCP table iph th
      = { table := table.set i
            { f with RecvNext := (th.SeqNum + th.Payload.length
                        + (if th.HasFlag tcp.SYN || th.HasFlag tcp.FIN then 1 else 0)) % 2 ^ 32,
                     SocketState := .SocketClosing,
                     ID := wrapInt (f.ID + 1),
                     Conn := { f.Conn with closed := true } },
          sent := [{ iph := { Version := 4, Len := 20, TOS := 0, TotalLen := 52,
                              ID := f.ID, Flags := 2, TTL := 128, Protocol := 6,
                              Src := iph.Dst, Dst := iph.Src, Options := [] },
                     th := { Source := th.Destination, Destination := th.Source,
                             SeqNum := f.SendNext,
                             AckNum := (th.SeqNum + th.Payload.length
                               + (if th.HasFlag tcp.SYN || th.HasFlag tcp.FIN then 1 else 0))
                               % 2 ^ 32,
                             DataOffset := 5, Reserved := 0, ECN := 0, Ctrl := tcp.ACK,
                             Window := 64420, Checksum := 0, Urgent := 0, Options := [],
                             Payload := [] } }],
          ret := .nil } ∧
    (f.Conn.buffer = [] → ∀ (b : List UInt8) (ev : RecvEvent),
      Connection.Read { f.Conn with closed := true } b ev
        = { conn := { f.Conn with closed := true }, b := b, n := 0, err := some .EOF }) := by
  constructor
  · rw [handleTCP_of_find table i f iph th hfind hf,
      handleState_accepted f iph th hrst (accepted_of f th hord), advance_eq]
    simp [dispatch, hstate, reply, close_eq]
  · intro hb b ev
    simp [Connection.Read, hb]

/-- Claim C19. LAST_ACK and CLOSING: for every flow whose socket state is LAST_ACK or
CLOSING and every in-order inbound segment without RST that the lookup maps to it: if
the segment carries ACK, `handleTCP` closes the byte-stream and sets the state to
TIME_WAIT, emitting nothing; if it does not carry ACK the segment is dropped: the
socket state and the connection, its `closed` flag included, are unchanged and
nothing is emitted. -/
theorem handleTCP_last_ack_closing (table : StateTable) (i : Nat) (f : State)
    (iph : ipv4.Header) (th : tcp.Header)
    (hfind : table.find iph.Src iph.Dst th.Source th.Destination = some i)
    (hf : table[i]? = some f)
    (hstate : f.SocketState = .SocketLastAck ∨ f.SocketState = .SocketClosing)
    (hrst : th.HasFlag tcp.RST = false)
    (hord : th.SeqNum = f.RecvNext ∨ f.RecvNext = 0) :
    (th.HasFlag tcp.ACK = true →
      Stack.handleTCP table iph th
        = { table := table.set i
              { f with RecvNext := (th.SeqNum + th.Payload.length
                          + (if th.HasFlag tcp.SYN || th.HasFlag tcp.FIN then 1 else 0))
                          % 2 ^ 32,
                       SocketState := .SocketTimeWait,
                       Conn := { f.Conn with closed := true } },
            sent := [], ret := .nil }) ∧
    (th.HasFlag tcp.ACK = false →
      Stack.handleTCP table iph th
        = { table := table.set i
              { f with RecvNext := (th.SeqNum + th.Payload.length
                          + (if th.HasFlag tcp.SYN || th.HasFlag tcp.FIN then 1 else 0))
                          % 2 ^ 32 },
            sent := [], ret := .nil }) := by
  rw [handleTCP_of_find table i f iph th hfind hf,
    handleState_accepted f iph th hrst (accepted_of f th hord), advance_eq]
  rcases hstate with hs | hs
  · exact ⟨fun hack => by simp [dispatch, hs, hack, close_eq],
      fun hack => by simp [dispatch, hs, hack]⟩
  · exact ⟨fun hack => by simp [dispatch, hs, hack, close_eq],
      fun hack => by simp [dispatch, hs, hack]⟩

/-- Claim C20. Rejected dial: for every flow in SYN_SENT and every in-order inbound
segment without RST that the lookup maps to it and that does not have SYN and ACK
both set, `handleTCP` sets the socket state to CLOSED, emits no segment, leaves the
connection, its connected signal included, as it was and returns nil. -/
theorem handleTCP_rejects_dial (table : StateTable) (i : Nat) (f : State)
    (iph : ipv4.Header) (th : tcp.Header)
    (hfind : table.find iph.Src iph.Dst th.Source th.Destination = some i)
    (hf : table[i]? = some f)
    (hstate : f.SocketState = .SocketSynSent)
    (hrst : th.HasFlag tcp.RST = false)
    (hord : th.SeqNum = f.RecvNext ∨ f.RecvNext = 0)
    (hflags : ¬ (th.HasFlag tcp.SYN = true ∧ th.HasFlag tcp.ACK = true)) :
    Stack.handleTCP table iph th
      = { table := table.set i
            { f with RecvNext := (th.SeqNum + th.Payload.length
                        + (if th.HasFlag tcp.SYN || th.HasFlag tcp.FIN then 1 else 0)) % 2 ^ 32,
                     SocketState := .SocketClosed },
          sent := [], ret := .nil } := by
  have hsa : th.HasFlag (tcp.SYN ||| tcp.ACK) = false := by
    rw [hasFlag_syn_ack]
    simpa using hflags
  rw [handleTCP_of_find table i f iph th hfind hf,
    handleState_accepted f iph th hrst (accepted_of f th hord), advance_eq]
  simp [dispatch, hstate, hsa]


/-! ## The state table -/

theorem ipEqual_self (ip : IP) : IP.Equal ip ip = true := by
  simp [IP.Equal]

/-- A flow passes the tests of `Get` for the query seen from the peer. -/
theorem matches_inbound (f : State) :
    f.matches f.DestIP f.SrcIP f.DestPort f.SrcPort = true := by
  simp [State.matches, ipEqual_self]

/-- A flow passes the tests of `Get` for the query seen from the local endpoint. -/
theorem matches_outbound (f : State) :
    f.matches f.SrcIP f.DestIP f.SrcPort f.DestPort = true := by
  simp [State.matches, ipEqual_self]

/-- The first entry that satisfies a test is what an index search and a search by
value both return. -/
theorem find_first (p : State → Bool) : ∀ (l : List State) (i : Nat) (f : State),
    l[i]? = some f → p f = true →
    (∀ j g, j < i → l[j]? = some g → p g = false) →
    l.findIdx? p = some i ∧ l.find? p = some f := by
  intro l
  induction l with
  | nil => intro i f h; simp at h
  | cons x xs ih =>
    intro i f h hp hb
    cases i with
    | zero =>
      simp only [List.getElem?_cons_zero, Option.some.injEq] at h
      subst h
      simp [List.findIdx?_cons, List.find?_cons, hp]
    | succ i =>
      have hx : p x = false := hb 0 x (Nat.succ_pos i) (by simp)
      have h2 : xs[i]? = some f := by simpa using h
      obtain ⟨a, b⟩ := ih i f h2 hp (fun j g hj hg =>
        hb (j + 1) g (Nat.succ_lt_succ hj) (by simpa using hg))
      simp [List.findIdx?_cons, List.find?_cons, hx, List.findIdx?_succ, a, b]

theorem find_none (p : State → Bool) (l : List State) (h : ∀ g ∈ l, p g = false) :
    l.findIdx? p = none ∧ l.find? p = none := by
  constructor
  · rw [List.findIdx?_eq_none_iff]
    intro x hx; simp [h x hx]
  · rw [List.find?_eq_none]
    intro x hx; simp [h x hx]

theorem find_some_of_mem (p : State → Bool) (l : List State) (f : State) (hf : f ∈ l)
    (hp : p f = true) : ∃ g, l.find? p = some g := by
  have h : (l.find? p).isSome = true := by
    rw [List.find?_isSome]; exact ⟨f, hf, hp⟩
  exact Option.isSome_iff_exists.mp h

/-- Claim C21. Bidirectional lookup: for every state table that holds a flow `f` with
local endpoint (L, lp) and remote endpoint (R, rp), `Get(R, L, rp, lp)` and
`Get(L, R, lp, rp)` both return a flow, and they return `f` itself (the entry at the
position of `f`) whenever no entry before `f` passes the tests for the query; `Get`
returns nil when no entry passes the tests, in particular on the empty table. `Get`
is a function of the table alone and returns no table: its body assigns nothing. -/
theorem get_bidirectional (table : StateTable) (i : Nat) (f : State)
    (hf : table[i]? = some f) :
    (∃ g, table.Get f.DestIP f.SrcIP f.DestPort f.SrcPort = some g) ∧
    (∃ g, table.Get f.SrcIP f.DestIP f.SrcPort f.DestPort = some g) ∧
    ((∀ j g, j < i → table[j]? = some g →
        g.matches f.DestIP f.SrcIP f.DestPort f.SrcPort = false) →
      table.find f.DestIP f.SrcIP f.DestPort f.SrcPort = some i ∧
      table.Get f.DestIP f.SrcIP f.DestPort f.SrcPort = some f) ∧
    ((∀ j g, j < i → table[j]? = some g →
        g.matches f.SrcIP f.DestIP f.SrcPort f.DestPort = false) →
      table.find f.SrcIP f.DestIP f.SrcPort f.DestPort = some i ∧
      table.Get f.SrcIP f.DestIP f.SrcPort f.DestPort = some f) ∧
    (∀ (other : StateTable) (SrcIP DestIP : IP) (SrcPort DestPort : Nat),
      (∀ g ∈ other, g.matches SrcIP DestIP SrcPort DestPort = false) →
      other.find SrcIP DestIP SrcPort DestPort = none ∧
      other.Get SrcIP DestIP SrcPort DestPort = none) ∧
    (∀ (SrcIP DestIP : IP) (SrcPort DestPort : Nat),
      StateTable.Get [] SrcIP DestIP SrcPort DestPort = none) := by
  have hmem : f ∈ table := List.getElem?_mem hf
  refine ⟨?_, ?_, ?_, ?_, ?_, ?_⟩
  · exact find_some_of_mem _ table f hmem (matches_inbound f)
  · exact find_some_of_mem _ table f hmem (matches_outbound f)
  · intro h
    exact find_first _ table i f hf (matches_inbound f) h
  · intro h
    exact find_first _ table i f hf (matches_outbound f) h
  · intro other SrcIP DestIP SrcPort DestPort h
    exact find_none _ other h
  · intro SrcIP DestIP SrcPort DestPort
    rfl

/-- Claim C23. Lookup aliasing: for every flow `f` with local endpoint (L, lp), the
query with source and destination address both L and source and destination port
both lp returns `f` when `f` is the only entry of the table; and there are a flow and
a query that is neither the 4-tuple of the flow nor its reverse for which `Get`
returns the flow: the scenario flow (10.0.0.1:33000 to 93.184.216.34:80) with the
query (10.0.0.1, 10.0.0.1, 33000, 33000). -/
theorem get_aliases_unrelated_query :
    (∀ f : State, StateTable.Get [f] f.SrcIP f.SrcIP f.SrcPort f.SrcPort = some f) ∧
    (∃ (f : State) (SrcIP DestIP : IP) (SrcPort DestPort : Nat),
      (SrcIP, SrcPort, DestIP, DestPort) ≠ (f.SrcIP, f.SrcPort, f.DestIP, f.DestPort) ∧
      (SrcIP, SrcPort, DestIP, DestPort) ≠ (f.DestIP, f.DestPort, f.SrcIP, f.SrcPort) ∧
      StateTable.Get [f] SrcIP DestIP SrcPort DestPort = some f) := by
  constructor
  · intro f
    have h : f.matches f.SrcIP f.SrcIP f.SrcPort f.SrcPort = true := by
      simp [State.matches, ipEqual_self]
    simp [StateTable.Get, List.find?_cons, h]
  · exact ⟨dialled, localIP, localIP, 33000, 33000, by decide, by decide, by decide⟩


/-! ## Dialling -/

theorem openSourcePort_eq (r : Nat) (h : r < 32768) : openSourcePort r = 1000 + r := by
  simp only [openSourcePort, u16]; omega

theorem openSendNext_eq (r : Nat) (h : r < 2147483648) : openSendNext r = r := by
  simp only [openSendNext, u32]; omega

theorem openID_range (r : Nat) : 0 ≤ openID r ∧ openID r < 65535 := by
  simp only [openID, u32]
  omega

theorem openID_succ (r : Nat) : wrapInt (openID r + 1) = openID r + 1 := by
  have h := openID_range r
  simp only [wrapInt]
  omega

/-- Claim C24. Open effect: for every `Open` whose random draws give the source port
`p = 1000 + rPort` and the initial sequence number `rSeq`, and whose requested
destination port is a 16-bit value, `Open` emits exactly one segment, with only the
SYN flag, `seq = rSeq`, `ack = 0`, no payload, source port `p` and the requested
destination port; it returns nil and leaves a flow with socket state SYN_SENT,
`SendNext = rSeq + 1`, `RecvNext = 0` and the IP identification of the SYN plus 1,
appended as the last entry of the state table, every earlier entry in place. -/
theorem open_effect (table : StateTable) (c : Connection) (src dst : IP) (port : Int)
    (rPort rSeq rID : Nat)
    (hport : 0 ≤ port ∧ port < 65536) (hrPort : rPort < 32768) (hrSeq : rSeq < 2147483648) :
    Connection.Open table c src dst port rPort rSeq rID
      = { table := table ++
            [{ SrcIP := src, SrcPort := 1000 + rPort, DestIP := dst, DestPort := port.toNat,
               RecvNext := 0, SendNext := rSeq + 1, SendUnAcknowledged := 0, LastAcked := 0,
               SocketState := .SocketSynSent, ID := openID rID + 1,
               Conn := { c with Src := src, Dst := dst, closed := false,
                                SourcePort := 1000 + rPort,
                                DestinationPort := port.toNat } }],
          sent := [{ iph := { Version := 4, Len := 20, TOS := 0, TotalLen := 52,
                              ID := openID rID, Flags := 2, TTL := 128, Protocol := 6,
                              Src := src, Dst := dst, Options := [] },
                     th := { Source := 1000 + rPort, Destination := port.toNat,
                             SeqNum := rSeq, AckNum := 0, DataOffset := 5, Reserved := 0,
                             ECN := 0, Ctrl := tcp.SYN, Window := 64420, Checksum := 0,
                             Urgent := 0, Options := [], Payload := [] } }],
          ret := .nil } := by
  have hp : (port % 65536).toNat = port.toNat := by
    have : port % 65536 = port := Int.emod_eq_of_lt hport.1 hport.2
    rw [this]
  have hs : u32 (rSeq + 1) = rSeq + 1 := by simp only [u32]; omega
  simp [Connection.Open, openSourcePort_eq rPort hrPort, openSendNext_eq rSeq hrSeq, hp, hs,
    openID_succ]

/-- Claim C25. Ranges chosen by Open: for every value `rPort` in [0, 32768) drawn for
the port, the source port `1000 + uint16(rPort)` computed in 16-bit arithmetic is
`1000 + rPort`, without overflow, and lies in [1000, 33767]; for every value `rSeq` in
[0, 2^31) drawn for the sequence number, the initial `SendNext` (the sequence number
of the SYN) is `rSeq`, below 2^31. Both are the values `Open` places in the SYN it
emits. -/
theorem open_ranges (table : StateTable) (c : Connection) (src dst : IP) (port : Int)
    (rPort rSeq rID : Nat) (hrPort : rPort < 32768) (hrSeq : rSeq < 2147483648) :
    openSourcePort rPort = 1000 + rPort ∧
    1000 ≤ openSourcePort rPort ∧ openSourcePort rPort ≤ 33767 ∧
    openSendNext rSeq = rSeq ∧ openSendNext rSeq < 2 ^ 31 ∧
    (Connection.Open table c src dst port rPort rSeq rID).sent.map
        (fun p => (p.th.Source, p.th.SeqNum))
      = [(openSourcePort rPort, openSendNext rSeq)] := by
  have h1 := openSourcePort_eq rPort hrPort
  have h2 := openSendNext_eq rSeq hrSeq
  refine ⟨h1, by omega, by omega, h2, by omega, ?_⟩
  simp [Connection.Open]


/-! ## Table membership along a run -/

theorem dispatch_endpoints (s : State) (iph : ipv4.Header) (th : tcp.Header) :
    (dispatch s iph th).state.endpoints = s.endpoints := by
  unfold dispatch
  cases h : s.SocketState <;> simp only [] <;> (try split_ifs) <;> rfl

theorem advance_endpoints (s : State) (th : tcp.Header) :
    (advance s th).endpoints = s.endpoints := by
  unfold advance; split_ifs <;> rfl

theorem handleState_endpoints (f : State) (iph : ipv4.Header) (th : tcp.Header) :
    (handleState f iph th).state.endpoints = f.endpoints := by
  by_cases hrst : th.HasFlag tcp.RST = true
  · simp [handleState, hrst, State.endpoints]
  · have hrst' : th.HasFlag tcp.RST = false := by simpa using hrst
    by_cases hord : f.RecvNext = 0 ∨ f.RecvNext = th.SeqNum
    · rw [handleState_accepted f iph th hrst' hord, dispatch_endpoints, advance_endpoints]
      rfl
    · have h0 : ¬ f.RecvNext = 0 := fun h => hord (Or.inl h)
      have h1 : ¬ f.RecvNext = th.SeqNum := fun h => hord (Or.inr h)
      simp [handleState, hrst', h0, h1]

theorem write_endpoints (f : State) (b : List UInt8) :
    (Connection.Write f b).state.endpoints = f.endpoints := by
  unfold Connection.Write; split_ifs <;> rfl

theorem close_endpoints (f : State) :
    (Connection.Close f).state.endpoints = f.endpoints := by
  unfold Connection.Close; split_ifs <;> rfl

/-- A user action on an entry keeps every entry in place, with its endpoints. -/
theorem applyOp_entry (table : StateTable) (k : Nat) (op : Op) (i : Nat) (f : State)
    (hf : table[i]? = some f) :
    ∃ g, (applyOp table k op)[i]? = some g ∧ g.endpoints = f.endpoints := by
  have hi := getElem?_lt table i f hf
  cases op with
  | segment iph th =>
    rcases handleTCP_entry table i f iph th hf with h | h
    · exact ⟨f, h, rfl⟩
    · exact ⟨_, h, handleState_endpoints f iph th⟩
  | write b =>
    simp only [applyOp]
    cases hk : table[k]? with
    | none => exact ⟨f, hf, rfl⟩
    | some s =>
      by_cases hki : k = i
      · subst hki
        rw [hf] at hk; cases hk
        exact ⟨_, by simp [List.getElem?_set, hi], write_endpoints f b⟩
      · exact ⟨f, by simp [List.getElem?_set, hki, hf], rfl⟩
  | close =>
    simp only [applyOp]
    cases hk : table[k]? with
    | none => exact ⟨f, hf, rfl⟩
    | some s =>
      by_cases hki : k = i
      · subst hki
        rw [hf] at hk; cases hk
        exact ⟨_, by simp [List.getElem?_set, hi], close_endpoints f⟩
      · exact ⟨f, by simp [List.getElem?_set, hki, hf], rfl⟩

theorem open_table (table : StateTable) (c : Connection) (src dst : IP) (port : Int)
    (rPort rSeq rID : Nat) :
    ∃ g, (Connection.Open table c src dst port rPort rSeq rID).table = table ++ [g] ∧
      g.SocketState = .SocketSynSent ∧ g.Conn.closed = false :=
  ⟨_, rfl, rfl, rfl⟩

/-- No action of a run removes or replaces an entry of the table. -/
theorem run_entry (acts : List Action) : ∀ (table : StateTable) (i : Nat) (f : State),
    table[i]? = some f →
    ∃ g, (Stack.run table acts)[i]? = some g ∧ g.endpoints = f.endpoints := by
  induction acts with
  | nil => intro table i f hf; exact ⟨f, by simpa [Stack.run] using hf, rfl⟩
  | cons a rest ih =>
    intro table i f hf
    have hi := getElem?_lt table i f hf
    cases a with
    | dial src dst port rPort rSeq rID =>
      obtain ⟨n, hn, _, _⟩ := open_table table (newConnection src dst) src dst port rPort rSeq rID
      simp only [Stack.run]
      rw [hn]
      exact ih _ i f (by rw [List.getElem?_append_left hi]; exact hf)
    | segment iph th =>
      obtain ⟨g, hg, he⟩ := applyOp_entry table i (.segment iph th) i f hf
      simp only [applyOp] at hg
      simp only [Stack.run]
      split_ifs
      · exact ⟨g, hg, he⟩
      · obtain ⟨g2, hg2, he2⟩ := ih _ i g hg
        exact ⟨g2, hg2, he2.trans he⟩
    | write k b =>
      obtain ⟨g, hg, he⟩ := applyOp_entry table k (.write b) i f hf
      obtain ⟨g2, hg2, he2⟩ := ih _ i g hg
      exact ⟨g2, by simpa [Stack.run] using hg2, he2.trans he⟩
    | close k =>
      obtain ⟨g, hg, he⟩ := applyOp_entry table k .close i f hf
      obtain ⟨g2, hg2, he2⟩ := ih _ i g hg
      exact ⟨g2, by simpa [Stack.run] using hg2, he2.trans he⟩

/-- Claim C22 as stated fails. After a dial and an RST from the peer the flow is still
the entry of the table, and its socket state is CLOSED. -/
theorem closed_flow_stays_in_table :
    ((Stack.run [] [scenarioDial, .segment fromPeer (peerSegment 0 tcp.RST [])])[0]?).map
        (fun s => (s.endpoints, s.SocketState))
      = some ((localIP, 33000, peerIP, 80), .SocketClosed) := by
  decide

/-- Claim C22, amended. Table membership is permanent: at every point of every run made
of dials, inbound segments, Writes and Closes, every flow that is an entry of the
state table is still the entry at its position at the end of the run, with the same
endpoints, whatever its socket state has become, CLOSED included; and every flow
created by a dial is an entry from the dial on. -/
theorem table_entries_persist (table : StateTable) (acts : List Action) :
    (∀ (i : Nat) (f : State), table[i]? = some f →
      ∃ g, (Stack.run table acts)[i]? = some g ∧ g.endpoints = f.endpoints) ∧
    (∀ (src dst : IP) (port : Int) (rPort rSeq rID : Nat),
      ∃ g, (Stack.run table (.dial src dst port rPort rSeq rID :: acts))[table.length]?
          = some g ∧
        g.endpoints = (src, openSourcePort rPort, dst, (port % 65536).toNat)) := by
  refine ⟨fun i f hf => run_entry acts table i f hf, ?_⟩
  intro src dst port rPort rSeq rID
  simp only [Stack.run]
  have h : (Connection.Open table (newConnection src dst) src dst port rPort rSeq rID).table[
      table.length]? = some
        ((Connection.Open table (newConnection src dst) src dst port rPort rSeq rID).table.getLast
          (by simp [Connection.Open])) := by
    simp [Connection.Open]
  obtain ⟨g, hg, he⟩ := run_entry acts _ _ _ h
  refine ⟨g, hg, ?_⟩
  rw [he]
  simp [Connection.Open, State.endpoints]


/-! ## End of stream, the zero sentinel, the acknowledgement number -/

/-- The steps in which the stack closes the byte-stream of a flow: an RST, or an
accepted segment in FIN_WAIT_2, or an accepted segment with ACK in LAST_ACK or in
CLOSING. -/
theorem handleState_closes (f : State) (iph : ipv4.Header) (th : tcp.Header)
    (h : th.HasFlag tcp.RST = true ∨
      (th.HasFlag tcp.RST = false ∧ (th.SeqNum = f.RecvNext ∨ f.RecvNext = 0) ∧
        (f.SocketState = .SocketFinWait2 ∨
          ((f.SocketState = .SocketLastAck ∨ f.SocketState = .SocketClosing) ∧
            th.HasFlag tcp.ACK = true)))) :
    (handleState f iph th).state.Conn = { f.Conn with closed := true } := by
  rcases h with hrst | ⟨hrst, hord, hs⟩
  · simp [handleState, hrst, close_eq]
  · rw [handleState_accepted f iph th hrst (accepted_of f th hord), advance_eq]
    rcases hs with hs | ⟨hs | hs, hack⟩
    · simp [dispatch, hs, close_eq]
    · simp [dispatch, hs, hack, close_eq]
    · simp [dispatch, hs, hack, close_eq]

/-- Claim C26. End of stream after closure: for every connection whose byte-stream is
closed, a `Read` made while the receive buffer is empty returns `(0, EOF)` whatever
the event, that is without waiting for the timeout, and a `Read` made while bytes are
buffered returns the first `min(len b, len buffer)` of them with no error; and the
byte-stream of a flow is closed, its buffer untouched, after `handleTCP` handled an RST
for it, or an accepted segment in FIN_WAIT_2, or an accepted segment with ACK in
LAST_ACK or CLOSING. -/
theorem read_after_closure :
    (∀ (conn : Connection) (b : List UInt8) (ev : RecvEvent), conn.closed = true →
      (conn.buffer = [] →
        conn.Read b ev = { conn := conn, b := b, n := 0, err := some .EOF }) ∧
      (conn.buffer ≠ [] →
        (conn.Read b ev).err = none ∧
        (conn.Read b ev).n = min b.length conn.buffer.length ∧
        (conn.Read b ev).b
          = conn.buffer.take (min b.length conn.buffer.length)
              ++ b.drop (min b.length conn.buffer.length) ∧
        (conn.Read b ev).conn
          = { conn with buffer := conn.buffer.drop (min b.length conn.buffer.length) })) ∧
    (∀ (table : StateTable) (i : Nat) (f : State) (iph : ipv4.Header) (th : tcp.Header),
      table.find iph.Src iph.Dst th.Source th.Destination = some i →
      table[i]? = some f →
      (th.HasFlag tcp.RST = true ∨
        (th.HasFlag tcp.RST = false ∧ (th.SeqNum = f.RecvNext ∨ f.RecvNext = 0) ∧
          (f.SocketState = .SocketFinWait2 ∨
            ((f.SocketState = .SocketLastAck ∨ f.SocketState = .SocketClosing) ∧
              th.HasFlag tcp.ACK = true)))) →
      ∃ g, (Stack.handleTCP table iph th).table[i]? = some g ∧
        g.Conn = { f.Conn with closed := true }) := by
  constructor
  · intro conn b ev hc
    constructor
    · intro hb
      simp [Connection.Read, hb, hc]
    · intro hb
      have hpos : conn.buffer.length > 0 := List.length_pos.mpr hb
      simp [Connection.Read, hpos, copy]
  · intro table i f iph th hfind hf h
    have hi := getElem?_lt table i f hf
    refine ⟨(handleState f iph th).state, ?_, handleState_closes f iph th h⟩
    rw [handleTCP_of_find table i f iph th hfind hf]
    simp [List.getElem?_set, hi]

/-- Claim C27 as stated fails. The handshake of the dialled flow is completed by a
SYN+ACK with sequence number 2^32 - 1 that carries one byte of payload: the flow is
ESTABLISHED with `RecvNext` 1, not 0, and a following segment with sequence number
5000 is dropped, `RecvNext` staying at 1. -/
theorem handshake_at_max_seq_with_payload :
    ((Stack.handleTCP [dialled] fromPeer (peerSegment 4294967295 18 [0x48])).table[0]?).map
        (fun s => (s.SocketState, s.RecvNext)) = some (.SocketEstablished, 1) ∧
    ((Stack.handleAll [dialled]
        [(fromPeer, peerSegment 4294967295 18 [0x48]),
         (fromPeer, peerSegment 5000 24 [0x49])])[0]?).map
        (fun s => (s.SocketState, s.RecvNext)) = some (.SocketEstablished, 1) := by
  decide

/-- Claim C27, amended. Zero is the "uninitialised" sentinel in every state: a flow in
SYN_SENT with `RecvNext = 0` whose handshake is completed by a SYN+ACK with sequence
number 2^32 - 1 and no payload is ESTABLISHED with `RecvNext = 0`; and for every flow
in ESTABLISHED with `RecvNext = 0`, every inbound segment without RST that the lookup
maps to it, whatever its sequence number `s`, is accepted as in order: `RecvNext`
becomes `s + len(payload)` (+1 for SYN or FIN) modulo 2^32 and the payload is appended
to the receive buffer. -/
theorem zero_recvNext_is_sentinel :
    (∀ (table : StateTable) (i : Nat) (f : State) (iph : ipv4.Header) (th : tcp.Header),
      table.find iph.Src iph.Dst th.Source th.Destination = some i →
      table[i]? = some f →
      f.SocketState = .SocketSynSent → f.RecvNext = 0 →
      th.HasFlag tcp.RST = false → th.HasFlag tcp.SYN = true → th.HasFlag tcp.ACK = true →
      th.SeqNum = 4294967295 → th.Payload = [] →
      ∃ g, (Stack.handleTCP table iph th).table[i]? = some g ∧
        g.SocketState = .SocketEstablished ∧ g.RecvNext = 0) ∧
    (∀ (table : StateTable) (i : Nat) (f : State) (iph : ipv4.Header) (th : tcp.Header),
      table.find iph.Src iph.Dst th.Source th.Destination = some i →
      table[i]? = some f →
      f.SocketState = .SocketEstablished → f.RecvNext = 0 →
      th.HasFlag tcp.RST = false →
      ∃ g, (Stack.handleTCP table iph th).table[i]? = some g ∧
        g.RecvNext = (th.SeqNum + th.Payload.length
          + (if th.HasFlag tcp.SYN || th.HasFlag tcp.FIN then 1 else 0)) % 2 ^ 32 ∧
        g.Conn.buffer = f.Conn.buffer ++ th.Payload) := by
  constructor
  · intro table i f iph th hfind hf hstate hrecv hrst hsyn hack hseq hpay
    have hi := getElem?_lt table i f hf
    have hsa : th.HasFlag (tcp.SYN ||| tcp.ACK) = true := by
      rw [hasFlag_syn_ack, hsyn, hack]; rfl
    refine ⟨(handleState f iph th).state, ?_, ?_, ?_⟩
    · rw [handleTCP_of_find table i f iph th hfind hf]
      simp [List.getElem?_set, hi]
    · rw [handleState_accepted f iph th hrst (Or.inl hrecv), advance_eq]
      simp [dispatch, hstate, hsa]
    · rw [handleState_accepted f iph th hrst (Or.inl hrecv), dispatch_recvNext,
        advance_recvNext]
      simp [hsyn, hseq, hpay]
  · intro table i f iph th hfind hf hstate hrecv hrst
    have hi := getElem?_lt table i f hf
    have hin : inOrder f th = true := by simp [inOrder, hrst, hrecv]
    refine ⟨(handleState f iph th).state, ?_, ?_, ?_⟩
    · rw [handleTCP_of_find table i f iph th hfind hf]
      simp [List.getElem?_set, hi]
    · rw [handleState_accepted f iph th hrst (Or.inl hrecv), dispatch_recvNext,
        advance_recvNext]
    · rw [handleState_buffer]
      simp [hin, hstate]

/-- The handler reads the source and destination port, the sequence number, the
control field and the payload of a segment, and nothing else. -/
theorem handleState_ignores (f : State) (iph : ipv4.Header) (th : tcp.Header)
    (a w c u : Nat) :
    handleState f iph { th with AckNum := a, Window := w, Checksum := c, Urgent := u }
      = handleState f iph th := by
  rfl

theorem handleTCP_ignores (table : StateTable) (iph : ipv4.Header) (th : tcp.Header)
    (a w c u : Nat) :
    Stack.handleTCP table iph { th with AckNum := a, Window := w, Checksum := c, Urgent := u }
      = Stack.handleTCP table iph th := by
  simp only [Stack.handleTCP, handleState_ignores]

/-- Claim C28. The inbound acknowledgement number is never consulted: for every table
and every two inbound segments that agree on addresses, ports, sequence number,
control flags and payload and differ in their acknowledgement number, window,
checksum or urgent pointer, `handleTCP` gives the same table, the same emitted
segments and the same return value; in particular a SYN+ACK completes the handshake
of a flow in SYN_SENT whatever its acknowledgement number. -/
theorem handleTCP_ignores_ack_number :
    (∀ (table : StateTable) (iph : ipv4.Header) (th : tcp.Header) (a w c u : Nat),
      Stack.handleTCP table iph
          { th with AckNum := a, Window := w, Checksum := c, Urgent := u }
        = Stack.handleTCP table iph th) ∧
    (∀ (table : StateTable) (i : Nat) (f : State) (iph : ipv4.Header) (th : tcp.Header)
        (a : Nat),
      table.find iph.Src iph.Dst th.Source th.Destination = some i →
      table[i]? = some f →
      f.SocketState = .SocketSynSent → f.RecvNext = 0 →
      th.HasFlag tcp.RST = false → th.HasFlag tcp.SYN = true → th.HasFlag tcp.ACK = true →
      ∃ g, (Stack.handleTCP table iph { th with AckNum := a }).table[i]? = some g ∧
        g.SocketState = .SocketEstablished ∧ g.Conn.Connected = true) := by
  constructor
  · intro table iph th a w c u
    exact handleTCP_ignores table iph th a w c u
  · intro table i f iph th a hfind hf hstate hrecv hrst hsyn hack
    have hi := getElem?_lt table i f hf
    have hsa : th.HasFlag (tcp.SYN ||| tcp.ACK) = true := by
      rw [hasFlag_syn_ack, hsyn, hack]; rfl
    have hsame : Stack.handleTCP table iph { th with AckNum := a }
        = Stack.handleTCP table iph th :=
      handleTCP_ignores table iph th a th.Window th.Checksum th.Urgent
    refine ⟨(handleState f iph th).state, ?_, ?_, ?_⟩
    · rw [hsame, handleTCP_of_find table i f iph th hfind hf]
      simp [List.getElem?_set, hi]
    · rw [handleState_accepted f iph th hrst (Or.inl hrecv), advance_eq]
      simp [dispatch, hstate, hsa]
    · rw [handleState_accepted f iph th hrst (Or.inl hrecv), advance_eq]
      simp [dispatch, hstate, hsa]


/-! ## The byte-stream is open while a flow is connected -/

theorem handleTCP_openWhileConnected (table : StateTable) (iph : ipv4.Header)
    (th : tcp.Header) (h : ∀ g ∈ table, openWhileConnected g = true) :
    ∀ g ∈ (Stack.handleTCP table iph th).table, openWhileConnected g = true := by
  cases hfind : table.find iph.Src iph.Dst th.Source th.Destination with
  | none => simpa [Stack.handleTCP, hfind] using h
  | some j =>
    cases hj : table[j]? with
    | none => simpa [Stack.handleTCP, hfind, hj] using h
    | some s =>
      intro g hg
      simp only [Stack.handleTCP, hfind, hj] at hg
      rcases List.mem_or_eq_of_mem_set hg with hm | he
      · exact h g hm
      · rw [he]
        exact (openWhileConnected_preserved s (h s (List.getElem?_mem hj))).1 iph th

theorem applyOp_openWhileConnected (table : StateTable) (k : Nat) (op : Op)
    (h : ∀ g ∈ table, openWhileConnected g = true) :
    ∀ g ∈ applyOp table k op, openWhileConnected g = true := by
  cases op with
  | segment iph th => exact handleTCP_openWhileConnected table iph th h
  | write b =>
    simp only [applyOp]
    cases hk : table[k]? with
    | none => simpa using h
    | some s =>
      intro g hg
      rcases List.mem_or_eq_of_mem_set hg with hm | he
      · exact h g hm
      · rw [he]
        exact (openWhileConnected_preserved s (h s (List.getElem?_mem hk))).2.1 b
  | close =>
    simp only [applyOp]
    cases hk : table[k]? with
    | none => simpa using h
    | some s =>
      intro g hg
      rcases List.mem_or_eq_of_mem_set hg with hm | he
      · exact h g hm
      · rw [he]
        exact (openWhileConnected_preserved s (h s (List.getElem?_mem hk))).2.2

/-- Along every run that starts from a table of flows whose byte-stream is open while
they are in SYN_SENT or ESTABLISHED, in particular from the empty table, every flow
of the table keeps that property: no flow is ESTABLISHED with a closed `Recv`. -/
theorem run_openWhileConnected (acts : List Action) : ∀ table : StateTable,
    (∀ g ∈ table, openWhileConnected g = true) →
    ∀ g ∈ Stack.run table acts, openWhileConnected g = true := by
  induction acts with
  | nil => intro table h; simpa [Stack.run] using h
  | cons a rest ih =>
    intro table h
    cases a with
    | dial src dst port rPort rSeq rID =>
      obtain ⟨n, hn, hs, hc⟩ :=
        open_table table (newConnection src dst) src dst port rPort rSeq rID
      simp only [Stack.run]
      rw [hn]
      apply ih
      intro g hg
      rcases List.mem_append.mp hg with hm | hm
      · exact h g hm
      · have : g = n := by simpa using hm
        rw [this]
        simp [openWhileConnected, hc]
    | segment iph th =>
      have hstep := handleTCP_openWhileConnected table iph th h
      simp only [Stack.run]
      split_ifs
      · exact hstep
      · exact ih _ hstep
    | write k b =>
      simp only [Stack.run]
      exact ih _ (applyOp_openWhileConnected table k (.write b) h)
    | close k =>
      simp only [Stack.run]
      exact ih _ (applyOp_openWhileConnected table k .close h)


/-! ## Instances on the scenarios of the specification -/

/-- Scenario 1: `SendNext` 1001 and a SYN+ACK with sequence number 9000 give one
ACK with seq 1001 and ack 9001, and the flow is ESTABLISHED. -/
theorem handleTCP_completes_handshake_scenario :
    Stack.handleTCP [dialled] fromPeer (peerSegment 9000 18 [])
      = { table := [established], sent := [localPacket 7 1001 9001 tcp.ACK], ret := .nil } :=
  handleTCP_completes_handshake [dialled] 0 dialled fromPeer (peerSegment 9000 18 [])
    (by decide) (by decide) (by decide) (by decide) (by decide) (by decide) (by decide)

/-- Scenario 3: a payload with sequence number 9051 while 9001 is expected changes
nothing and emits nothing. -/
theorem handleTCP_drops_out_of_order_scenario :
    Stack.handleTCP [established] fromPeer (peerSegment 9051 24 httpOk)
      = { table := [established], sent := [], ret := .nil } :=
  handleTCP_drops_out_of_order [established] 0 established fromPeer (peerSegment 9051 24 httpOk)
    (by decide) (by decide) (by decide) (by decide) (by decide)

/-- Scenario 2: the 19-byte response with sequence number 9001 moves `RecvNext` to
9020. -/
theorem handleTCP_advances_recvNext_scenario :
    ∃ g, (Stack.handleTCP [requested] fromPeer (peerSegment 9001 24 httpOk)).table[0]? = some g ∧
      g.RecvNext = 9020 :=
  handleTCP_advances_recvNext [requested] 0 requested fromPeer (peerSegment 9001 24 httpOk)
    (by decide) (by decide) (by decide) (by decide)

/-- Scenario 2: the PSH+ACK response is acknowledged by one ACK with seq 1075 and
ack 9020. -/
theorem handleTCP_established_ack_rule_scenario :
    (Stack.handleTCP [requested] fromPeer (peerSegment 9001 24 httpOk)).sent
      = [localPacket 9 1075 9020 tcp.ACK] := by
  obtain ⟨rest, e, hr⟩ :=
    (handleTCP_established_ack_rule [requested] 0 requested fromPeer (peerSegment 9001 24 httpOk)
      (by decide) (by decide) (by decide) (by decide) (by decide)).2 (by decide)
  rw [e, hr (by decide)]
  decide

/-- Scenario 2: a read of up to 8 bytes from the 19 buffered bytes returns 8. -/
theorem read_preserves_order_scenario :
    ({ scenarioConn with buffer := httpOk } : Connection).buffer ≠ [] ∧
    (({ scenarioConn with buffer := httpOk } : Connection).Read
        [0, 0, 0, 0, 0, 0, 0, 0] .timeout).n = 8 :=
  ⟨by decide,
    (read_preserves_order { scenarioConn with buffer := httpOk } [0, 0, 0, 0, 0, 0, 0, 0]
      .timeout (by decide)).1⟩

/-- The sample SYN packet leaves `send` with a valid IPv4 header checksum. -/
theorem send_ipv4_checksum_valid_sample :
    40 ≤ samplePacket.length ∧
    ∃ out, Stack.send samplePacket = some out ∧ ipv4HeaderCheck out = 0xFFFF :=
  ⟨by decide, send_ipv4_checksum_valid samplePacket (by decide)⟩

/-- The sample SYN packet with three payload bytes (odd length) leaves `send` with
a valid TCP checksum. -/
theorem send_tcp_checksum_valid_sample :
    40 ≤ (samplePacket ++ [1, 2, 3]).length ∧ (samplePacket ++ [1, 2, 3]).length ≤ 65535 ∧
    ∃ out, Stack.send (samplePacket ++ [1, 2, 3]) = some out ∧ tcpSegmentCheck out = 0xFFFF :=
  ⟨by decide, by decide, send_tcp_checksum_valid (samplePacket ++ [1, 2, 3]) (by decide)
    (by decide)⟩

/-- The sample SYN packet: only the four checksum bytes change. -/
theorem send_touches_only_checksum_fields_sample :
    40 ≤ samplePacket.length ∧
    ∃ out, Stack.send samplePacket = some out ∧ out.length = samplePacket.length ∧
      (∀ i, i ≠ 10 → i ≠ 11 → i ≠ 36 → i ≠ 37 → out[i]? = samplePacket[i]?) ∧
      (∀ a b c d : UInt8,
        Stack.send ((((samplePacket.set 10 a).set 11 b).set 36 c).set 37 d) = some out) ∧
      Stack.send out = some out :=
  ⟨by decide, send_touches_only_checksum_fields samplePacket (by decide)⟩

/-- Scenario 4: an RST, here with a sequence number that is not the expected one,
closes the ESTABLISHED flow. -/
theorem handleTCP_rst_closes_scenario :
    Stack.handleTCP [established] fromPeer (peerSegment 0 tcp.RST [])
      = { table := [{ established with
                        Conn := { established.Conn with closed := true },
                        SocketState := .SocketClosed }],
          sent := [], ret := .nil } :=
  handleTCP_rst_closes [established] 0 established fromPeer (peerSegment 0 tcp.RST [])
    (by decide) (by decide) (by decide)


/-- A user `Close` on the flow of scenario 5 (`SendNext` 1075): no wrap, `SendNext`
does not decrease. -/
theorem sendNext_monotone_without_wrap_scenario :
    ∃ g, (applyOp [responded] 0 .close)[0]? = some g ∧
      (g.SendNext = responded.SendNext ∨
        g.SendNext = (responded.SendNext + Op.close.size) % 2 ^ 32) ∧
      (responded.SendNext + Op.close.size < 2 ^ 32 → responded.SendNext ≤ g.SendNext) :=
  sendNext_monotone_without_wrap [responded] 0 responded .close (by decide)

/-- Scenario 2: `SendNext` 1001, `RecvNext` 9001 and a 74-byte payload give one PSH+ACK
with seq 1001 and ack 9001, and `SendNext` 1075. -/
theorem write_effect_scenario :
    Connection.Write established httpGet
      = { state := requested,
          sent := [{ iph := { (localPacket 8 1001 9001 24).iph with TotalLen := 126 },
                     th := { (localPacket 8 1001 9001 24).th with Payload := httpGet } }],
          n := 74, err := none } :=
  (write_effect established httpGet (by decide) (by decide)).1

/-- After the user closed the flow (FIN_WAIT_1, `closing` set) a `Write` fails and
changes nothing. -/
theorem write_gate_is_closing_or_closed_scenario :
    Connection.Write finWait1 httpGet
      = { state := finWait1, sent := [], n := 0, err := some .closedConnection } :=
  (write_gate_is_closing_or_closed finWait1 httpGet).2.1 (by decide)

/-- Scenario 5: after `Close` and the peer's ACK, a `Write` of the request fails. -/
theorem no_write_after_close_scenario :
    ∃ g, (Stack.handleAll ([responded].set 0 (Connection.Close responded).state)
        [(fromPeer, peerSegment 9020 16 [])])[0]? = some g ∧
      Connection.Write g httpGet
        = { state := g, sent := [], n := 0, err := some .closedConnection } :=
  (no_write_after_close [responded] 0 responded (by decide)
    [(fromPeer, peerSegment 9020 16 [])] httpGet).1

/-- Scenario 5: `SendNext` 1075 and `RecvNext` 9020 give FIN+ACK with seq 1075 and ack
9020, and the flow is in FIN_WAIT_1 with `SendNext` 1076. -/
theorem close_effect_scenario :
    Connection.Close responded
      = { state := { responded with SendNext := 1076, SocketState := .SocketFinWait1,
                                    ID := 11,
                                    Conn := { responded.Conn with closing := true } },
          sent := [localPacket 10 1075 9020 (tcp.FIN ||| tcp.ACK)], ret := .nil } :=
  ((close_effect responded).1 (by decide) (by decide)).1

/-- The peer closes first: a FIN+ACK with sequence number 9001 on the ESTABLISHED flow
is answered by an ACK and a FIN, both with seq 1001 and ack 9002. -/
theorem handleTCP_peer_fin_established_scenario :
    Stack.handleTCP [established] fromPeer (peerSegment 9001 17 [])
      = { table := [lastAck],
          sent := [localPacket 8 1001 9002 tcp.ACK, localPacket 9 1001 9002 tcp.FIN],
          ret := .nil } :=
  handleTCP_peer_fin_established [established] 0 established fromPeer (peerSegment 9001 17 [])
    (by decide) (by decide) (by decide) (by decide) (by decide) (by decide) (by decide)

/-- Scenario 5: the peer's ACK moves the flow from FIN_WAIT_1 to FIN_WAIT_2. -/
theorem handleTCP_fin_wait_1_scenario :
    Stack.handleTCP [finWait1] fromPeer (peerSegment 9001 16 [])
      = { table := [finWait2], sent := [], ret := .nil } :=
  (handleTCP_fin_wait_1 [finWait1] 0 finWait1 fromPeer (peerSegment 9001 16 [])
    (by decide) (by decide) (by decide) (by decide) (by decide)).2.1 (by decide) (by decide)

/-- Scenario 5: the peer's FIN in FIN_WAIT_2 is answered by an ACK with seq 1002 and
ack 9002; the flow is CLOSING and its byte-stream closed. -/
theorem handleTCP_fin_wait_2_scenario :
    Stack.handleTCP [finWait2] fromPeer (peerSegment 9001 17 [])
      = { table := [{ finWait2 with RecvNext := 9002, SocketState := .SocketClosing,
                                    ID := 10,
                                    Conn := { finWait2.Conn with closed := true } }],
          sent := [localPacket 9 1002 9002 tcp.ACK], ret := .nil } :=
  (handleTCP_fin_wait_2 [finWait2] 0 finWait2 fromPeer (peerSegment 9001 17 [])
    (by decide) (by decide) (by decide) (by decide) (by decide)).1

/-- The peer's ACK of our FIN in LAST_ACK: TIME_WAIT, byte-stream closed. -/
theorem handleTCP_last_ack_closing_scenario :
    Stack.handleTCP [lastAck] fromPeer (peerSegment 9002 16 [])
      = { table := [{ lastAck with SocketState := .SocketTimeWait,
                                   Conn := { lastAck.Conn with closed := true } }],
          sent := [], ret := .nil } :=
  (handleTCP_last_ack_closing [lastAck] 0 lastAck fromPeer (peerSegment 9002 16 [])
    (by decide) (by decide) (Or.inl (by decide)) (by decide) (by decide)).1 (by decide)

/-- A bare ACK in answer to the SYN: the flow goes to CLOSED. -/
theorem handleTCP_rejects_dial_scenario :
    Stack.handleTCP [dialled] fromPeer (peerSegment 9000 16 [])
      = { table := [{ dialled with RecvNext := 9000, SocketState := .SocketClosed }],
          sent := [], ret := .nil } :=
  handleTCP_rejects_dial [dialled] 0 dialled fromPeer (peerSegment 9000 16 [])
    (by decide) (by decide) (by decide) (by decide) (by decide) (by decide)


/-- The scenario flow behind a flow of other endpoints: the inbound query finds it at
its position, 1. -/
theorem get_bidirectional_scenario :
    StateTable.find [otherFlow, dialled] peerIP localIP 80 33000 = some 1 ∧
    StateTable.Get [otherFlow, dialled] peerIP localIP 80 33000 = some dialled :=
  (get_bidirectional [otherFlow, dialled] 1 dialled (by decide)).2.2.1
    (fun j g hj hg => by
      have h0 : j = 0 := by omega
      subst h0
      have hg2 : otherFlow = g := by simpa using hg
      subst hg2
      decide)

/-- Scenario 4: the dialled flow is still entry 0, with its endpoints, after the RST. -/
theorem table_entries_persist_scenario :
    ∃ g, (Stack.run [dialled] [.segment fromPeer (peerSegment 0 tcp.RST [])])[0]? = some g ∧
      g.endpoints = dialled.endpoints :=
  (table_entries_persist [dialled] [.segment fromPeer (peerSegment 0 tcp.RST [])]).1
    0 dialled (by decide)

/-- Scenario 1: the dial with initial sequence number 1000 emits SYN seq 1000 ack 0
and leaves the flow in SYN_SENT with `SendNext` 1001 as the only entry. -/
theorem open_effect_scenario :
    Connection.Open [] (newConnection localIP peerIP) localIP peerIP 80 32000 1000 6
      = { table := [dialled], sent := [localPacket 6 1000 0 tcp.SYN], ret := .nil } :=
  open_effect [] (newConnection localIP peerIP) localIP peerIP 80 32000 1000 6
    (by decide) (by decide) (by decide)

/-- The largest draws: port 33767 and sequence number 2^31 - 1. -/
theorem open_ranges_extremes :
    openSourcePort 32767 = 1000 + 32767 ∧
    1000 ≤ openSourcePort 32767 ∧ openSourcePort 32767 ≤ 33767 ∧
    openSendNext 2147483647 = 2147483647 ∧ openSendNext 2147483647 < 2 ^ 31 ∧
    (Connection.Open [] (newConnection localIP peerIP) localIP peerIP 80 32767 2147483647
        6).sent.map (fun p => (p.th.Source, p.th.SeqNum))
      = [(openSourcePort 32767, openSendNext 2147483647)] :=
  open_ranges [] (newConnection localIP peerIP) localIP peerIP 80 32767 2147483647 6
    (by decide) (by decide)

/-- Scenario 4: a read on the closed connection with an empty buffer returns EOF. -/
theorem read_after_closure_scenario :
    Connection.Read { scenarioConn with closed := true } [0, 0] .timeout
      = { conn := { scenarioConn with closed := true }, b := [0, 0], n := 0,
          err := some .EOF } :=
  (read_after_closure.1 { scenarioConn with closed := true } [0, 0] .timeout rfl).1 rfl

/-- An ESTABLISHED flow with `RecvNext` 0 accepts a segment with sequence number 5000
and one byte of payload: `RecvNext` 5001, the byte buffered. -/
theorem zero_recvNext_is_sentinel_scenario :
    ∃ g, (Stack.handleTCP [zeroed] fromPeer (peerSegment 5000 24 [0x49])).table[0]? = some g ∧
      g.RecvNext = 5001 ∧ g.Conn.buffer = [0x49] :=
  zero_recvNext_is_sentinel.2 [zeroed] 0 zeroed fromPeer (peerSegment 5000 24 [0x49])
    (by decide) (by decide) (by decide) (by decide) (by decide)

/-- A SYN+ACK acknowledging 4242 instead of 1001 is handled like the one of
scenario 1. -/
theorem handleTCP_ignores_ack_number_scenario :
    Stack.handleTCP [dialled] fromPeer
        { peerSegment 9000 18 [] with AckNum := 4242, Window := 0, Checksum := 0, Urgent := 0 }
      = Stack.handleTCP [dialled] fromPeer (peerSegment 9000 18 []) :=
  handleTCP_ignores_ack_number.1 [dialled] fromPeer (peerSegment 9000 18 []) 4242 0 0 0

end Netstack
